import Mathlib

/-!
# Verification of the asena syntax-tree substrate (`asena-leaf`)

A shallow embedding of the tree substrate of the repository: the untyped
`GreenTree` value family (`src/asena-leaf/src/ast/green.rs`), the typed
`Cursor` overlay (`src/asena-leaf/src/ast/cursor.rs`) and the `Lexeme`
terminal wrapper (`src/asena-leaf/src/ast/lexeme.rs`).

Modelling conventions:
* Source spans (`Spanned`, `Loc`) and interning (`Intern`) carry no
  behaviour relevant to the verified claims: a span is metadata and an
  `Intern<T>` dereferences transparently to its `T`.  Both are elided, so
  `Intern<Spanned<Tree>>` is embedded as `Tree`.
* Shared interior mutability (`Rc<RefCell<...>>` cursor slots,
  `Arc<RwLock<HashMap<..>>>` per-node `names`/`keys` tables) is embedded
  as an explicit `Heap`: a slot or table is a natural-number id, and every
  stateful operation threads the heap.  Cloning a `Cursor` or an `AstLeaf`
  copies the id (shares the cell), exactly as cloning the `Rc`/`Arc` does.
* `Rc<dyn Any>` dynamic values are embedded as a pair of a type tag
  (`Nat`) and a `DynVal` payload; `downcast` succeeds exactly when the tag
  matches, mirroring the `TypeId` check.
* A Rust panic (`unwrap` of `None`, `RefCell` borrow conflict) is embedded
  as `Option.none` in the function's result.
* `HashMap` is embedded as an association list with prepend-overwrite
  insertion; `HashMap::insert`'s result (the previous value, if any) is
  the lookup before the insertion.
-/

set_option autoImplicit false

namespace Asena

/-- Token kinds; the concrete vocabulary is opaque to the substrate, only a
sentinel `error` kind and a few representative kinds are needed. -/
inductive TokenKind where
  | error
  | identK
  | symbolK
  | numberK
  deriving DecidableEq, Repr, Inhabited

/-- Tree kinds (`TreeKind`); `error` is the sentinel returned by
`GreenTree::kind` on non-leaf variants, `listTree` is used by
`Vec::unwrap`. -/
inductive TreeKind where
  | error
  | listTree
  | exprBinary
  | declVal
  deriving DecidableEq, Repr, Inhabited

/-- A token with its classified kind, text, and the optional stable name
given to it by the parser (the `Named` wrapper's `name` field). -/
structure Token where
  kind : TokenKind := TokenKind.error
  text : String := ""
  name : Option String := Option.none
  deriving DecidableEq, Repr, Inhabited

/-- A child of a `Tree` (`Child`): either a named subtree or a token.  The
subtree's `name`, `kind` and `children` fields are inlined to keep the
inductive non-mutual. -/
inductive Child where
  | tree (name : Option String) (kind : TreeKind) (children : List Child)
  | token (t : Token)
  deriving Inhabited

mutual

def Child.decEq : (a b : Child) → Decidable (a = b)
  | Child.token t₁, Child.token t₂ =>
      if h : t₁ = t₂ then isTrue (by rw [h])
      else isFalse (fun hc => by cases hc; exact h rfl)
  | Child.tree n₁ k₁ cs₁, Child.tree n₂ k₂ cs₂ =>
      if h₁ : n₁ = n₂ then
        if h₂ : k₁ = k₂ then
          match Child.decEqList cs₁ cs₂ with
          | isTrue h₃ => isTrue (by rw [h₁, h₂, h₃])
          | isFalse h₃ => isFalse (fun hc => by cases hc; exact h₃ rfl)
        else isFalse (fun hc => by cases hc; exact h₂ rfl)
      else isFalse (fun hc => by cases hc; exact h₁ rfl)
  | Child.token _, Child.tree _ _ _ => isFalse (fun hc => Child.noConfusion hc)
  | Child.tree _ _ _, Child.token _ => isFalse (fun hc => Child.noConfusion hc)

def Child.decEqList : (a b : List Child) → Decidable (a = b)
  | [], [] => isTrue rfl
  | x :: xs, y :: ys =>
      match Child.decEq x y, Child.decEqList xs ys with
      | isTrue h₁, isTrue h₂ => isTrue (by rw [h₁, h₂])
      | isFalse h₁, _ => isFalse (fun hc => by cases hc; exact h₁ rfl)
      | _, isFalse h₂ => isFalse (fun hc => by cases hc; exact h₂ rfl)
  | [], _ :: _ => isFalse (fun hc => List.noConfusion hc)
  | _ :: _, [] => isFalse (fun hc => List.noConfusion hc)

end

instance : DecidableEq Child := Child.decEq

/-- The parser's tree (`Tree`), as stored in `AstLeaf.data`
(`Intern<Spanned<Tree>>` with interning and spans elided). -/
structure Tree where
  name : Option String := Option.none
  kind : TreeKind := TreeKind.error
  children : List Child := []
  deriving DecidableEq, Inhabited

/-- View a tree child as a `Tree` (used where the source moves a
`Child::Tree` payload into a tree position). -/
def Child.asTree : Child → Tree
  | Child.tree n k cs => { name := n, kind := k, children := cs }
  | Child.token _ => {}

/-- The name under which a child is registered, if any. -/
def Child.childName : Child → Option String
  | Child.tree n _ _ => n
  | Child.token t => t.name

/-- The closed universe of payloads stored behind `Rc<dyn Any>` /
`Arc<dyn Any>` (materialized node values, token-lexeme values, side-table
values). -/
inductive DynVal where
  | unitV
  | strV (s : String)
  | natV (n : Nat)
  | treeV (t : Tree)
  | lexV (tok : Token) (isNone : Bool) (v : DynVal)
  | listV (xs : List DynVal)
  deriving Inhabited

mutual

def DynVal.decEq : (a b : DynVal) → Decidable (a = b)
  | DynVal.unitV, DynVal.unitV => isTrue rfl
  | DynVal.strV s₁, DynVal.strV s₂ =>
      if h : s₁ = s₂ then isTrue (by rw [h])
      else isFalse (fun hc => by cases hc; exact h rfl)
  | DynVal.natV n₁, DynVal.natV n₂ =>
      if h : n₁ = n₂ then isTrue (by rw [h])
      else isFalse (fun hc => by cases hc; exact h rfl)
  | DynVal.treeV t₁, DynVal.treeV t₂ =>
      if h : t₁ = t₂ then isTrue (by rw [h])
      else isFalse (fun hc => by cases hc; exact h rfl)
  | DynVal.lexV t₁ b₁ v₁, DynVal.lexV t₂ b₂ v₂ =>
      if h₁ : t₁ = t₂ then
        if h₂ : b₁ = b₂ then
          match DynVal.decEq v₁ v₂ with
          | isTrue h₃ => isTrue (by rw [h₁, h₂, h₃])
          | isFalse h₃ => isFalse (fun hc => by cases hc; exact h₃ rfl)
        else isFalse (fun hc => by cases hc; exact h₂ rfl)
      else isFalse (fun hc => by cases hc; exact h₁ rfl)
  | DynVal.listV xs, DynVal.listV ys =>
      match DynVal.decEqList xs ys with
      | isTrue h => isTrue (by rw [h])
      | isFalse h => isFalse (fun hc => by cases hc; exact h rfl)
  | DynVal.unitV, DynVal.strV _ => isFalse (fun hc => DynVal.noConfusion hc)
  | DynVal.unitV, DynVal.natV _ => isFalse (fun hc => DynVal.noConfusion hc)
  | DynVal.unitV, DynVal.treeV _ => isFalse (fun hc => DynVal.noConfusion hc)
  | DynVal.unitV, DynVal.lexV _ _ _ => isFalse (fun hc => DynVal.noConfusion hc)
  | DynVal.unitV, DynVal.listV _ => isFalse (fun hc => DynVal.noConfusion hc)
  | DynVal.strV _, DynVal.unitV => isFalse (fun hc => DynVal.noConfusion hc)
  | DynVal.strV _, DynVal.natV _ => isFalse (fun hc => DynVal.noConfusion hc)
  | DynVal.strV _, DynVal.treeV _ => isFalse (fun hc => DynVal.noConfusion hc)
  | DynVal.strV _, DynVal.lexV _ _ _ => isFalse (fun hc => DynVal.noConfusion hc)
  | DynVal.strV _, DynVal.listV _ => isFalse (fun hc => DynVal.noConfusion hc)
  | DynVal.natV _, DynVal.unitV => isFalse (fun hc => DynVal.noConfusion hc)
  | DynVal.natV _, DynVal.strV _ => isFalse (fun hc => DynVal.noConfusion hc)
  | DynVal.natV _, DynVal.treeV _ => isFalse (fun hc => DynVal.noConfusion hc)
  | DynVal.natV _, DynVal.lexV _ _ _ => isFalse (fun hc => DynVal.noConfusion hc)
  | DynVal.natV _, DynVal.listV _ => isFalse (fun hc => DynVal.noConfusion hc)
  | DynVal.treeV _, DynVal.unitV => isFalse (fun hc => DynVal.noConfusion hc)
  | DynVal.treeV _, DynVal.strV _ => isFalse (fun hc => DynVal.noConfusion hc)
  | DynVal.treeV _, DynVal.natV _ => isFalse (fun hc => DynVal.noConfusion hc)
  | DynVal.treeV _, DynVal.lexV _ _ _ => isFalse (fun hc => DynVal.noConfusion hc)
  | DynVal.treeV _, DynVal.listV _ => isFalse (fun hc => DynVal.noConfusion hc)
  | DynVal.lexV _ _ _, DynVal.unitV => isFalse (fun hc => DynVal.noConfusion hc)
  | DynVal.lexV _ _ _, DynVal.strV _ => isFalse (fun hc => DynVal.noConfusion hc)
  | DynVal.lexV _ _ _, DynVal.natV _ => isFalse (fun hc => DynVal.noConfusion hc)
  | DynVal.lexV _ _ _, DynVal.treeV _ => isFalse (fun hc => DynVal.noConfusion hc)
  | DynVal.lexV _ _ _, DynVal.listV _ => isFalse (fun hc => DynVal.noConfusion hc)
  | DynVal.listV _, DynVal.unitV => isFalse (fun hc => DynVal.noConfusion hc)
  | DynVal.listV _, DynVal.strV _ => isFalse (fun hc => DynVal.noConfusion hc)
  | DynVal.listV _, DynVal.natV _ => isFalse (fun hc => DynVal.noConfusion hc)
  | DynVal.listV _, DynVal.treeV _ => isFalse (fun hc => DynVal.noConfusion hc)
  | DynVal.listV _, DynVal.lexV _ _ _ => isFalse (fun hc => DynVal.noConfusion hc)

def DynVal.decEqList : (a b : List DynVal) → Decidable (a = b)
  | [], [] => isTrue rfl
  | x :: xs, y :: ys =>
      match DynVal.decEq x y, DynVal.decEqList xs ys with
      | isTrue h₁, isTrue h₂ => isTrue (by rw [h₁, h₂])
      | isFalse h₁, _ => isFalse (fun hc => by cases hc; exact h₁ rfl)
      | _, isFalse h₂ => isFalse (fun hc => by cases hc; exact h₂ rfl)
  | [], _ :: _ => isFalse (fun hc => List.noConfusion hc)
  | _ :: _, [] => isFalse (fun hc => List.noConfusion hc)

end

instance : DecidableEq DynVal := DynVal.decEq

/-- A dynamic value: a runtime type tag paired with the payload
(`Rc<dyn Any>`). -/
abbrev DynAny := Nat × DynVal

/-- `Lexeme<T>` (`lexeme.rs`): a token together with the typed value it
classifies to; `isNone` marks a placeholder lexeme. -/
structure Lexeme (α : Type) where
  token : Token := {}
  value : α
  isNone : Bool := false
  deriving DecidableEq

instance (α : Type) [Inhabited α] : Inhabited (Lexeme α) :=
  ⟨{ token := {}, value := default, isNone := false }⟩

/-! ## Association-list embedding of `HashMap` -/

/-- Lookup in a string-keyed association list (`HashMap::get`). -/
def lookupStr {β : Type} : List (String × β) → String → Option β
  | [], _ => Option.none
  | (k, v) :: rest, k' => if k = k' then some v else lookupStr rest k'

/-- Insertion with overwrite (`HashMap::insert`); prepending makes the new
binding shadow any old one for `lookupStr`. -/
def insertStr {β : Type} (xs : List (String × β)) (k : String) (v : β) :
    List (String × β) :=
  (k, v) :: xs

/-- Lookup in a `Nat`-keyed association list (heap cells by id). -/
def lookupId {β : Type} : List (Nat × β) → Nat → Option β
  | [], _ => Option.none
  | (k, v) :: rest, k' => if k = k' then some v else lookupId rest k'

/-- In-place update of the cell with the given id (no-op when absent). -/
def setId {β : Type} : List (Nat × β) → Nat → β → List (Nat × β)
  | [], _, _ => []
  | (k, v) :: rest, k', v' =>
      if k = k' then (k', v') :: rest else (k, v) :: setId rest k' v'

/-! ## The green tree (`green.rs`) and the heap of shared mutable cells -/

/-- An entry of a per-node `names` table: the `Arc<dyn Any>` always holds a
`Cursor<T>`, embedded as the type tag of `T` paired with the cursor's slot
id. -/
abbrev NEntry := Nat × Nat

/-- A per-node named-child cache (`AstLeaf.names`). -/
abbrev NamesTable := List (String × NEntry)

/-- A per-node side table (`AstLeaf.keys`): key name to `Rc<dyn Any>`. -/
abbrev KeysTable := List (String × DynAny)

/-- `AstLeaf` (green.rs:13): the structured-leaf payload.  The shared
`Arc<RwLock<...>>` `names` and `keys` tables are embedded as heap ids, so
cloning an `AstLeaf` shares them. -/
structure AstLeaf where
  data : Tree
  synthetic : Bool := false
  children : List (String × Child) := []
  keysRef : Nat
  namesRef : Nat
  deriving DecidableEq, Inhabited

/-- `GreenTree` (green.rs:37): the untyped tree value family. -/
inductive GreenTree where
  | leaf (l : AstLeaf)
  | vec (xs : List GreenTree)
  | token (lx : Lexeme DynAny)
  | none
  | empty
  deriving Inhabited

mutual

def GreenTree.decEq : (a b : GreenTree) → Decidable (a = b)
  | GreenTree.leaf l₁, GreenTree.leaf l₂ =>
      if h : l₁ = l₂ then isTrue (by rw [h])
      else isFalse (fun hc => by cases hc; exact h rfl)
  | GreenTree.vec xs, GreenTree.vec ys =>
      match GreenTree.decEqList xs ys with
      | isTrue h => isTrue (by rw [h])
      | isFalse h => isFalse (fun hc => by cases hc; exact h rfl)
  | GreenTree.token lx₁, GreenTree.token lx₂ =>
      if h : lx₁ = lx₂ then isTrue (by rw [h])
      else isFalse (fun hc => by cases hc; exact h rfl)
  | GreenTree.none, GreenTree.none => isTrue rfl
  | GreenTree.empty, GreenTree.empty => isTrue rfl
  | GreenTree.leaf _, GreenTree.vec _ => isFalse (fun hc => GreenTree.noConfusion hc)
  | GreenTree.leaf _, GreenTree.token _ => isFalse (fun hc => GreenTree.noConfusion hc)
  | GreenTree.leaf _, GreenTree.none => isFalse (fun hc => GreenTree.noConfusion hc)
  | GreenTree.leaf _, GreenTree.empty => isFalse (fun hc => GreenTree.noConfusion hc)
  | GreenTree.vec _, GreenTree.leaf _ => isFalse (fun hc => GreenTree.noConfusion hc)
  | GreenTree.vec _, GreenTree.token _ => isFalse (fun hc => GreenTree.noConfusion hc)
  | GreenTree.vec _, GreenTree.none => isFalse (fun hc => GreenTree.noConfusion hc)
  | GreenTree.vec _, GreenTree.empty => isFalse (fun hc => GreenTree.noConfusion hc)
  | GreenTree.token _, GreenTree.leaf _ => isFalse (fun hc => GreenTree.noConfusion hc)
  | GreenTree.token _, GreenTree.vec _ => isFalse (fun hc => GreenTree.noConfusion hc)
  | GreenTree.token _, GreenTree.none => isFalse (fun hc => GreenTree.noConfusion hc)
  | GreenTree.token _, GreenTree.empty => isFalse (fun hc => GreenTree.noConfusion hc)
  | GreenTree.none, GreenTree.leaf _ => isFalse (fun hc => GreenTree.noConfusion hc)
  | GreenTree.none, GreenTree.vec _ => isFalse (fun hc => GreenTree.noConfusion hc)
  | GreenTree.none, GreenTree.token _ => isFalse (fun hc => GreenTree.noConfusion hc)
  | GreenTree.none, GreenTree.empty => isFalse (fun hc => GreenTree.noConfusion hc)
  | GreenTree.empty, GreenTree.leaf _ => isFalse (fun hc => GreenTree.noConfusion hc)
  | GreenTree.empty, GreenTree.vec _ => isFalse (fun hc => GreenTree.noConfusion hc)
  | GreenTree.empty, GreenTree.token _ => isFalse (fun hc => GreenTree.noConfusion hc)
  | GreenTree.empty, GreenTree.none => isFalse (fun hc => GreenTree.noConfusion hc)

def GreenTree.decEqList : (a b : List GreenTree) → Decidable (a = b)
  | [], [] => isTrue rfl
  | x :: xs, y :: ys =>
      match GreenTree.decEq x y, GreenTree.decEqList xs ys with
      | isTrue h₁, isTrue h₂ => isTrue (by rw [h₁, h₂])
      | isFalse h₁, _ => isFalse (fun hc => by cases hc; exact h₁ rfl)
      | _, isFalse h₂ => isFalse (fun hc => by cases hc; exact h₂ rfl)
  | [], _ :: _ => isFalse (fun hc => List.noConfusion hc)
  | _ :: _, [] => isFalse (fun hc => List.noConfusion hc)

end

instance : DecidableEq GreenTree := GreenTree.decEq

/-- `Value<T>` (cursor.rs:16): the contents of a cursor's backing slot —
either a lazy green-tree location or a materialized value (`Rc<T>`,
embedded as tag + payload). -/
inductive Value where
  | green (g : GreenTree)
  | ref (tag : Nat) (v : DynVal)
  deriving DecidableEq, Inhabited

/-- The heap of shared mutable cells: cursor slots (`Rc<RefCell<Value>>`),
per-node `names` caches and per-node `keys` side tables (each an
`Arc<RwLock<HashMap<..>>>`).  `next` is the fresh-id counter. -/
structure Heap where
  slots : List (Nat × Value) := []
  names : List (Nat × NamesTable) := []
  keys : List (Nat × KeysTable) := []
  next : Nat := 0
  deriving DecidableEq, Inhabited

/-- Read a cursor slot.  A missing id is unreachable in well-formed use
(the `Rc` keeps the cell alive); it defaults to an invalid-tree slot. -/
def Heap.readSlot (h : Heap) (id : Nat) : Value :=
  (lookupId h.slots id).getD (Value.green GreenTree.empty)

/-- Overwrite a cursor slot (`RefCell::replace`). -/
def Heap.writeSlot (h : Heap) (id : Nat) (v : Value) : Heap :=
  { h with slots := setId h.slots id v }

/-- Allocate a fresh cursor slot (`Rc::new(RefCell::new(..))`). -/
def Heap.allocSlot (h : Heap) (v : Value) : Nat × Heap :=
  (h.next, { h with slots := (h.next, v) :: h.slots, next := h.next + 1 })

/-- The named-child cache stored under a table id. -/
def Heap.namesAt (h : Heap) (id : Nat) : NamesTable :=
  (lookupId h.names id).getD []

/-- The side table stored under a table id. -/
def Heap.keysAt (h : Heap) (id : Nat) : KeysTable :=
  (lookupId h.keys id).getD []

/-- Allocate a fresh, empty named-child cache
(`AstLeaf::new_ref(HashMap::new())`). -/
def Heap.allocNames (h : Heap) : Nat × Heap :=
  (h.next, { h with names := (h.next, []) :: h.names, next := h.next + 1 })

/-- Allocate a fresh, empty side table. -/
def Heap.allocKeys (h : Heap) : Nat × Heap :=
  (h.next, { h with keys := (h.next, []) :: h.keys, next := h.next + 1 })

/-- Overwrite the named-child cache under a table id. -/
def Heap.setNames (h : Heap) (id : Nat) (t : NamesTable) : Heap :=
  { h with names := setId h.names id t }

/-- Overwrite the side table under a table id. -/
def Heap.setKeys (h : Heap) (id : Nat) (t : KeysTable) : Heap :=
  { h with keys := setId h.keys id t }

/-- `Cursor<T>` (cursor.rs:10): a typed handle on a backing slot.  Cloning
a cursor copies the slot id — the clones share the slot. -/
structure Cursor (α : Type) where
  slot : Nat
  deriving DecidableEq, Inhabited

/-! ## Dynamic typing (`dyn Any`) and the `Leaf`/`Node`/`Terminal` traits -/

/-- The embedding of a Rust type into the dynamic-value universe: its
`TypeId` (a tag), its representation, and the round-trip law. -/
class AnyRep (α : Type) where
  tag : Nat
  enc : α → DynVal
  dec : DynVal → Option α
  dec_enc : ∀ a, dec (enc a) = some a

/-- The type tag of `α` (its `TypeId`). -/
def tagOf (α : Type) [i : AnyRep α] : Nat := i.tag

/-- Encode a typed value as a dynamic payload. -/
def encVal {α : Type} [i : AnyRep α] (a : α) : DynVal := i.enc a

/-- Decode a dynamic payload at type `α`. -/
def decVal {α : Type} [i : AnyRep α] (v : DynVal) : Option α := i.dec v

theorem decVal_encVal {α : Type} [i : AnyRep α] (a : α) :
    decVal (α := α) (encVal a) = some a := i.dec_enc a

/-- `Rc<dyn Any>::downcast_ref::<α>()`: succeeds exactly when the stored
tag is `α`'s tag. -/
def DynAny.downcastRef (α : Type) [AnyRep α] (d : DynAny) : Option α :=
  if d.1 = tagOf α then decVal d.2 else Option.none

/-- `Lexeme::<Rc<dyn Any>>::downcast_ref::<α>()` (used by `Cursor` on
`GreenTree::Token` slots). -/
def Lexeme.downcastRef (α : Type) [AnyRep α] (lx : Lexeme DynAny) : Option α :=
  DynAny.downcastRef α lx.value

/-- The `Leaf` conversion capability (defined outside `src/`; its shape is
fixed by its uses in `green.rs`/`lexeme.rs`/`cursor.rs`): fallible
conversion from a green tree, fallible conversion from a terminal token,
and a default value for `unwrap_or_default`. -/
class Leaf (α : Type) extends Inhabited α where
  make : GreenTree → Option α
  terminal : Token → Option α := fun _ => Option.none

/-- The `Node` conversion capability (defined outside `src/`, shape fixed
by its impls in `cursor.rs`/`lexeme.rs`): total conversion from a green
tree and back.  Both directions may allocate fresh cells (e.g.
`Vec::unwrap` allocates a leaf's tables), so they thread the heap. -/
class Node (α : Type) extends Leaf α where
  new : GreenTree → Heap → α × Heap
  unwrap : α → Heap → GreenTree × Heap

/-- The `Terminal` classification capability for token values. -/
class Terminal (α : Type) extends Inhabited α where
  terminal : Token → Option α

/-! ## Green-tree operations (`green.rs`) -/

/-- `children(&data)` (green.rs:373): the named-children map of a tree. -/
def childrenFn (data : Tree) : List (String × Child) :=
  data.children.foldl
    (fun acc c =>
      match c.childName with
      | some n => insertStr acc n c
      | Option.none => acc) []

/-- `GreenTree::new(data)` (green.rs:50): wrap a parsed tree, computing the
named-children map and allocating fresh, empty `names` and `keys` tables. -/
def GreenTree.newG (data : Tree) (h : Heap) : GreenTree × Heap :=
  let (ns, h₁) := h.allocNames
  let (ks, h₂) := h₁.allocKeys
  (GreenTree.leaf { data := data, synthetic := false, children := childrenFn data,
                    namesRef := ns, keysRef := ks }, h₂)

/-- `GreenTree::of(kind)` (green.rs:60): a synthetic leaf with the given
kind, an empty named-children map and fresh tables. -/
def GreenTree.ofKind (kind : TreeKind) (h : Heap) : GreenTree × Heap :=
  let (ns, h₁) := h.allocNames
  let (ks, h₂) := h₁.allocKeys
  (GreenTree.leaf { data := { kind := kind }, synthetic := true, children := [],
                    namesRef := ns, keysRef := ks }, h₂)

/-- `impl Default for GreenTree` (green.rs:314): a leaf over the default
tree with an empty named-children map and fresh tables (`keys` is listed
first in the source literal, so it gets the first fresh id). -/
def GreenTree.defaultG (h : Heap) : GreenTree × Heap :=
  let (ks, h₁) := h.allocKeys
  let (ns, h₂) := h₁.allocNames
  (GreenTree.leaf { data := {}, synthetic := false, children := [],
                    namesRef := ns, keysRef := ks }, h₂)

/-- Modelled from the spec: `Tree::matches(nth, kind)` is defined outside
`src/`; "token extraction by declared kind" — the nth child is a token of
the given kind. -/
def Tree.matchesT (t : Tree) (nth : Nat) (k : TokenKind) : Bool :=
  match t.children[nth]? with
  | some (Child.token tok) => tok.kind = k
  | _ => false

/-- Modelled from the spec: `Tree::is_single()` is defined outside `src/`;
"`is_single_child()`" — the tree has exactly one child. -/
def Tree.isSingleT (t : Tree) : Bool :=
  t.children.length = 1

/-- Modelled from the spec: `Tree::single()` is defined outside `src/`; the
single element of a terminal-shaped leaf, i.e. its first token child. -/
def Tree.singleT (t : Tree) : Token :=
  match t.children.findSome?
      (fun c =>
        match c with
        | Child.token tok => some tok
        | _ => Option.none) with
  | some tok => tok
  | Option.none => {}

/-- Modelled from the spec: `Tree::token(kind)` is defined outside `src/`;
"lookup of all tokens of a given kind" among the children. -/
def Tree.tokenAll (t : Tree) (k : TokenKind) : List Token :=
  t.children.filterMap
    (fun c =>
      match c with
      | Child.token tok => if tok.kind = k then some tok else Option.none
      | _ => Option.none)

/-- `GreenTree::kind` (green.rs:99): the tree kind, or the `Error` sentinel
on every non-leaf variant. -/
def GreenTree.kindOf : GreenTree → TreeKind
  | GreenTree.leaf l => l.data.kind
  | _ => TreeKind.error

/-- `GreenTree::matches` (green.rs:81). -/
def GreenTree.matches (g : GreenTree) (nth : Nat) (k : TokenKind) : Bool :=
  match g with
  | GreenTree.leaf l => l.data.matchesT nth k
  | _ => false

/-- `GreenTree::or_empty` (green.rs:90). -/
def GreenTree.orEmpty : GreenTree → Tree
  | GreenTree.leaf l => l.data
  | _ => {}

/-- `GreenTree::is_single` (green.rs:117). -/
def GreenTree.isSingle : GreenTree → Bool
  | GreenTree.leaf l => l.data.isSingleT
  | GreenTree.token _ => true
  | _ => false

/-- `GreenTree::children` (green.rs:126): the raw children, absent on every
non-leaf variant. -/
def GreenTree.childrenOpt : GreenTree → Option (List Child)
  | GreenTree.leaf l => some l.data.children
  | _ => Option.none

/-- `GreenTree::any_token` (green.rs:142): all tokens of the kind, or the
empty vector on every non-leaf variant. -/
def GreenTree.anyToken (g : GreenTree) (k : TokenKind) : List Token :=
  match g with
  | GreenTree.leaf l => l.data.tokenAll k
  | _ => []

/-- `GreenTree::token` (green.rs:149): the first token of the kind, or the
default token. -/
def GreenTree.tokenOf (g : GreenTree) (k : TokenKind) : Token :=
  match g with
  | GreenTree.leaf l => ((l.data.tokenAll k).head?).getD {}
  | _ => {}

/-- `GreenTree::has` (green.rs:181): whether the named-children map has the
name. -/
def GreenTree.has (g : GreenTree) (name : String) : Bool :=
  match g with
  | GreenTree.leaf l => (lookupStr l.children name).isSome
  | _ => false

/-! ## Cursor operations (`cursor.rs`) -/

/-- `Cursor::new` (cursor.rs:43): wrap a green tree in a fresh slot. -/
def Cursor.newC (α : Type) (g : GreenTree) (h : Heap) : Cursor α × Heap :=
  let (id, h') := h.allocSlot (Value.green g)
  (⟨id⟩, h')

/-- `impl Default for Cursor` (cursor.rs:136): a fresh slot holding the
default green tree. -/
def Cursor.defaultC (α : Type) (h : Heap) : Cursor α × Heap :=
  let (g, h₁) := GreenTree.defaultG h
  let (id, h₂) := h₁.allocSlot (Value.green g)
  (⟨id⟩, h₂)

/-- `Cursor::empty` (cursor.rs:32) — `Self::default()`. -/
def Cursor.emptyC (α : Type) (h : Heap) : Cursor α × Heap :=
  Cursor.defaultC α h

/-- `Cursor::of` (cursor.rs:111): a fresh slot holding the materialized
value. -/
def Cursor.ofV {α : Type} [AnyRep α] (v : α) (h : Heap) : Cursor α × Heap :=
  let (id, h') := h.allocSlot (Value.ref (tagOf α) (encVal v))
  (⟨id⟩, h')

/-- `impl From<Rc<T>> for Cursor<T>` (cursor.rs:127). -/
def Cursor.fromRc {α : Type} [AnyRep α] (v : α) (h : Heap) : Cursor α × Heap :=
  let (id, h') := h.allocSlot (Value.ref (tagOf α) (encVal v))
  (⟨id⟩, h')

/-- `impl From<Option<T>> for Cursor<T>` (cursor.rs:208): `Some` wraps the
value, `None` becomes a slot holding `GreenTree::None`. -/
def Cursor.fromOption {α : Type} [AnyRep α] : Option α → Heap → Cursor α × Heap
  | some v, h => Cursor.ofV v h
  | Option.none, h =>
      let (id, h') := h.allocSlot (Value.green GreenTree.none)
      (⟨id⟩, h')

/-- `Cursor::set` (cursor.rs:37): copy the other cursor's current slot
contents into this cursor's slot.  When the two cursors share one slot the
source panics: the argument's `borrow()` guard is still live when
`RefCell::replace` takes the mutable borrow.  The panic is `Option.none`. -/
def Cursor.setC {α : Type} (c other : Cursor α) (h : Heap) : Option Heap :=
  if c.slot = other.slot then Option.none
  else some (h.writeSlot c.slot (h.readSlot other.slot))

/-- `Cursor::replace` (cursor.rs:62): overwrite this cursor's slot with a
materialized value. -/
def Cursor.replaceC {α : Type} [AnyRep α] (c : Cursor α) (v : α) (h : Heap) : Heap :=
  h.writeSlot c.slot (Value.ref (tagOf α) (encVal v))

/-- `Cursor::as_new_node` (cursor.rs:51): clone the current slot contents
into a fresh slot.  Note: both arms `clone()` the contents — a `Green`
leaf's `names`/`keys` table ids are copied, not re-allocated. -/
def Cursor.asNewNodeC {α : Type} (c : Cursor α) (h : Heap) : Cursor α × Heap :=
  let (id, h') := h.allocSlot (h.readSlot c.slot)
  (⟨id⟩, h')

/-- `Cursor::as_leaf` (cursor.rs:119): materialize from a green slot via
`T::new`, or return the stored value.  (The `Value::Ref` payload is typed
in the source; an ill-tagged payload is unreachable and maps to the
default.) -/
def Cursor.asLeaf {α : Type} [Node α] [AnyRep α] (c : Cursor α) (h : Heap) : α × Heap :=
  match h.readSlot c.slot with
  | Value.green g => Node.new g h
  | Value.ref _ v => ((decVal v).getD default, h)

/-- `Value::green` (cursor.rs:22): the green view of slot contents; a
materialized value is `unwrap`ped back to a tree. -/
def Value.greenOf (α : Type) [Node α] [AnyRep α] : Value → Heap → GreenTree × Heap
  | Value.green g, h => (g, h)
  | Value.ref _ v, h => Node.unwrap ((decVal v).getD (default : α)) h

/-- `Cursor::is_none` (cursor.rs:91).  The source match predates the `Vec`
variant; a `vec` tree falls to the `false` arms. -/
def Cursor.isNoneC {α : Type} [Node α] [AnyRep α] (c : Cursor α) (h : Heap) : Bool × Heap :=
  let (g, h') := Value.greenOf α (h.readSlot c.slot) h
  (match g with
   | GreenTree.none => true
   | _ => false, h')

/-- `Cursor::is_empty` (cursor.rs:101): on a leaf, `!children.is_empty()`
— true exactly when the leaf HAS children; false on every other variant
(the source match predates `Vec`). -/
def Cursor.isEmptyC {α : Type} [Node α] [AnyRep α] (c : Cursor α) (h : Heap) : Bool × Heap :=
  let (g, h') := Value.greenOf α (h.readSlot c.slot) h
  (match g with
   | GreenTree.leaf l => !(l.data.children.isEmpty)
   | _ => false, h')

/-- `<Cursor as Try>::branch` (cursor.rs:265): `some` is
`ControlFlow::Continue` with the produced value, `Option.none` is
`ControlFlow::Break(None)`.  The source match predates the `Vec` variant;
a `vec` slot is mapped to `Break`.  A `Value::Ref` payload is typed in the
source and always continues with the stored value. -/
def Cursor.branchC {α : Type} [Node α] [AnyRep α] (c : Cursor α) (h : Heap) :
    Option α × Heap :=
  match h.readSlot c.slot with
  | Value.green (GreenTree.leaf l) =>
      let (a, h') := Node.new (GreenTree.leaf l) h
      (some a, h')
  | Value.green (GreenTree.token lx) => (Lexeme.downcastRef α lx, h)
  | Value.green GreenTree.empty => (Option.none, h)
  | Value.green GreenTree.none => (Option.none, h)
  | Value.green (GreenTree.vec _) => (Option.none, h)
  | Value.ref _ v => (decVal v, h)

/-- `<Cursor as FromResidual>::from_residual` (cursor.rs:248): the `None`
residual becomes `Cursor::empty()`. -/
def Cursor.fromResidual (α : Type) (h : Heap) : Cursor α × Heap :=
  Cursor.emptyC α h

/-! ## Typed projections out of a leaf's tree

The `Tree`-level accessors (`Tree::filter`, `Tree::terminal`, `Tree::at`,
`Tree::filter_terminal`) are defined outside `src/`; they are modelled from
the spec (§4.2, §6) and only their wrong-variant wrappers in `green.rs`
are claim-relevant. -/

/-- `impl Leaf for Lexeme<T>`'s `terminal` (lexeme.rs:168): classify the
token and pair it with the value. -/
def Lexeme.terminalLf {α : Type} [Terminal α] (tok : Token) : Option (Lexeme α) :=
  (Terminal.terminal tok).map fun v => { token := tok, value := v, isNone := false }

/-- Modelled from the spec: convert each child that the `Leaf` capability
accepts (subtrees via `make`, tokens via `terminal`), in order. -/
def mapMakeChildren (α : Type) [Leaf α] : List Child → Heap → List α × Heap
  | [], h => ([], h)
  | Child.tree n k sub :: cs, h =>
      let gh := GreenTree.newG { name := n, kind := k, children := sub } h
      (match Leaf.make (α := α) gh.1 with
       | some a =>
          (a :: (mapMakeChildren α cs gh.2).1, (mapMakeChildren α cs gh.2).2)
       | Option.none => mapMakeChildren α cs gh.2)
  | Child.token tok :: cs, h =>
      match Leaf.terminal (α := α) tok with
      | some a =>
          (a :: (mapMakeChildren α cs h).1, (mapMakeChildren α cs h).2)
      | Option.none => mapMakeChildren α cs h

/-- Modelled from the spec: `Tree::filter::<T>()` — "list projection
`filter::<T>() -> Cursor<Vec<T>>`": the children convertible to `T`,
materialized (`From<Vec<T>> for Cursor<Vec<T>>` is `Cursor::of`). -/
def Tree.filterC (α : Type) [Node α] [AnyRep α] [AnyRep (List α)] (t : Tree)
    (h : Heap) : Cursor (List α) × Heap :=
  let (xs, h₁) := mapMakeChildren α t.children h
  Cursor.ofV xs h₁

/-- Modelled from the spec: `Tree::filter_terminal::<T>()` — the token
children classified as `T`, materialized. -/
def Tree.filterTerminalC (α : Type) [Terminal α] [AnyRep (List (Lexeme α))]
    (t : Tree) (h : Heap) : Cursor (List (Lexeme α)) × Heap :=
  let xs := t.children.filterMap
    (fun c =>
      match c with
      | Child.token tok => Lexeme.terminalLf tok
      | _ => Option.none)
  Cursor.ofV xs h

/-- Modelled from the spec: `Tree::terminal(nth)` — "nth child of declared
kind" for terminals. -/
def Tree.terminalC (α : Type) [Terminal α] [AnyRep (Lexeme α)] (t : Tree)
    (nth : Nat) (h : Heap) : Cursor (Lexeme α) × Heap :=
  match t.children[nth]? with
  | some (Child.token tok) => Cursor.fromOption (Lexeme.terminalLf tok) h
  | _ => Cursor.emptyC (Lexeme α) h

/-- Modelled from the spec: `Tree::at(nth)` — "positional lookup
`at(nth) -> Cursor<T>`". -/
def Tree.atC (α : Type) [Node α] [AnyRep α] (t : Tree) (nth : Nat) (h : Heap) :
    Cursor α × Heap :=
  match t.children[nth]? with
  | some (Child.tree n k cs) =>
      let (g, h₁) := GreenTree.newG { name := n, kind := k, children := cs } h
      Cursor.fromOption (Leaf.make g) h₁
  | some (Child.token tok) => Cursor.fromOption (Leaf.terminal tok) h
  | Option.none => Cursor.emptyC α h

/-- `GreenTree::filter` (green.rs:134): empty cursor on every non-leaf
variant. -/
def GreenTree.filter (α : Type) [Node α] [AnyRep α] [AnyRep (List α)]
    (g : GreenTree) (h : Heap) : Cursor (List α) × Heap :=
  match g with
  | GreenTree.leaf l => Tree.filterC α l.data h
  | _ => Cursor.emptyC (List α) h

/-- `GreenTree::terminal` (green.rs:157): empty cursor on every non-leaf
variant. -/
def GreenTree.terminal (α : Type) [Terminal α] [AnyRep (Lexeme α)]
    (g : GreenTree) (nth : Nat) (h : Heap) : Cursor (Lexeme α) × Heap :=
  match g with
  | GreenTree.leaf l => Tree.terminalC α l.data nth h
  | _ => Cursor.emptyC (Lexeme α) h

/-- `GreenTree::filter_terminal` (green.rs:165): empty cursor on every
non-leaf variant. -/
def GreenTree.filterTerminal (α : Type) [Terminal α] [AnyRep (List (Lexeme α))]
    (g : GreenTree) (h : Heap) : Cursor (List (Lexeme α)) × Heap :=
  match g with
  | GreenTree.leaf l => Tree.filterTerminalC α l.data h
  | _ => Cursor.emptyC (List (Lexeme α)) h

/-- `GreenTree::at` (green.rs:173): empty cursor on every non-leaf
variant. -/
def GreenTree.at (α : Type) [Node α] [AnyRep α] (g : GreenTree) (nth : Nat)
    (h : Heap) : Cursor α × Heap :=
  match g with
  | GreenTree.leaf l => Tree.atC α l.data nth h
  | _ => Cursor.emptyC α h

/-- The `else`-branch of `GreenTree::named_at` (green.rs:194): fall back
from the cache to the named-children map. -/
def GreenTree.namedAtAux (α : Type) [Node α] [AnyRep α] (l : AstLeaf)
    (name : String) (h : Heap) : Cursor α × Heap :=
  match lookupStr l.children name with
  | some (Child.token _) => Cursor.emptyC α h
  | some (Child.tree n k cs) =>
      let (g, h₁) := GreenTree.newG { name := n, kind := k, children := cs } h
      Cursor.fromOption (Leaf.make g) h₁
  | Option.none => Cursor.emptyC α h

/-- `GreenTree::named_at` (green.rs:189): a cache hit of the right cursor
type is cloned (sharing its slot); otherwise fall back to the
named-children map; empty cursor on every non-leaf variant. -/
def GreenTree.namedAt (α : Type) [Node α] [AnyRep α] (g : GreenTree)
    (name : String) (h : Heap) : Cursor α × Heap :=
  match g with
  | GreenTree.leaf l =>
      (match lookupStr (h.namesAt l.namesRef) name with
       | some e =>
          if e.1 = tagOf α then (⟨e.2⟩, h)
          else GreenTree.namedAtAux α l name h
       | Option.none => GreenTree.namedAtAux α l name h)
  | _ => Cursor.emptyC α h

/-- The `else`-branch of `GreenTree::named_terminal` (green.rs:214). -/
def GreenTree.namedTerminalAux (α : Type) [Terminal α] [AnyRep (Lexeme α)]
    (l : AstLeaf) (name : String) (h : Heap) : Cursor (Lexeme α) × Heap :=
  match lookupStr l.children name with
  | some (Child.tree _ _ _) => Cursor.emptyC (Lexeme α) h
  | some (Child.token tok) => Cursor.fromOption (Lexeme.terminalLf tok) h
  | Option.none => Cursor.emptyC (Lexeme α) h

/-- `GreenTree::named_terminal` (green.rs:210). -/
def GreenTree.namedTerminal (α : Type) [Terminal α] [AnyRep (Lexeme α)]
    (g : GreenTree) (name : String) (h : Heap) : Cursor (Lexeme α) × Heap :=
  match g with
  | GreenTree.leaf l =>
      (match lookupStr (h.namesAt l.namesRef) name with
       | some e =>
          if e.1 = tagOf (Lexeme α) then (⟨e.2⟩, h)
          else GreenTree.namedTerminalAux α l name h
       | Option.none => GreenTree.namedTerminalAux α l name h)
  | _ => Cursor.emptyC (Lexeme α) h

/-- `GreenTree::as_new_node` (green.rs:236): a leaf is copied with fresh,
empty `names` and `keys` tables and a recomputed named-children map; every
other variant is cloned as-is. -/
def GreenTree.asNewNode : GreenTree → Heap → GreenTree × Heap
  | GreenTree.leaf l, h =>
      let (ns, h₁) := h.allocNames
      let (ks, h₂) := h₁.allocKeys
      (GreenTree.leaf { data := l.data, synthetic := l.synthetic,
                        children := childrenFn l.data, namesRef := ns, keysRef := ks }, h₂)
  | g, h => (g, h)

/-- `GreenTree::insert_key` (green.rs:251).  The source unwraps the value
returned by `HashMap::insert` — the PREVIOUS binding; on a first attach
this is `None` and the call panics (`Option.none`); on a re-attach the old
value is `downcast::<T::Value>().unwrap()`ed and returned. -/
def GreenTree.insertKey {α : Type} [AnyRep α] (g : GreenTree) (keyName : String)
    (v : α) (h : Heap) : Option (α × Heap) :=
  match g with
  | GreenTree.leaf l =>
      let tbl := h.keysAt l.keysRef
      let old := lookupStr tbl keyName
      let h' := h.setKeys l.keysRef (insertStr tbl keyName (tagOf α, encVal v))
      (match old with
       | some o => (DynAny.downcastRef α o).map (fun x => (x, h'))
       | Option.none => Option.none)
  | _ => some (v, h)

/-- `GreenTree::key` (green.rs:263): return the attached value when
present.  When absent the source inserts the default and then unwraps the
value returned by `HashMap::insert` (the previous binding, `None` here) —
it panics (`Option.none`) instead of returning the default its own doc
comment promises. -/
def GreenTree.keyGet (α : Type) [AnyRep α] [Inhabited α] (g : GreenTree)
    (keyName : String) (h : Heap) : Option (α × Heap) :=
  match g with
  | GreenTree.leaf l =>
      (match lookupStr (h.keysAt l.keysRef) keyName with
       | some o => (DynAny.downcastRef α o).map (fun x => (x, h))
       | Option.none => Option.none)
  | _ => some ((default : α), h)

/-- `GreenTree::insert` (green.rs:281): store `Cursor::of(value)` in the
names table. -/
def GreenTree.insertNamed {α : Type} [Node α] [AnyRep α] (g : GreenTree)
    (name : String) (v : α) (h : Heap) : Heap :=
  match g with
  | GreenTree.leaf l =>
      let (c, h₁) := Cursor.ofV v h
      h₁.setNames l.namesRef (insertStr (h₁.namesAt l.namesRef) name (tagOf α, c.slot))
  | _ => h

/-- `GreenTree::memoize` (green.rs:295): on a miss, invoke `f` on the tree,
store the resulting cursor under the name, and return it; on a hit, return
a clone of the stored cursor (sharing its slot) without invoking `f`.  A
hit of a different cursor type is `downcast_ref().unwrap()`ed — a panic
(`Option.none`).  On every non-leaf variant: an empty cursor, `f` not
invoked. -/
def GreenTree.memoize {α : Type} [Node α] [AnyRep α] (g : GreenTree)
    (name : String) (f : GreenTree → Heap → Cursor α × Heap) (h : Heap) :
    Option (Cursor α × Heap) :=
  match g with
  | GreenTree.leaf l =>
      (match lookupStr (h.namesAt l.namesRef) name with
       | some e =>
          if e.1 = tagOf α then some (⟨e.2⟩, h) else Option.none
       | Option.none =>
          let (c, h₁) := f g h
          some (c, h₁.setNames l.namesRef
                    (insertStr (h₁.namesAt l.namesRef) name (tagOf α, c.slot))))
  | _ =>
      let (c, h') := Cursor.emptyC α h
      some (c, h')

/-- `GreenTree::as_node` (green.rs:73): `Leaf::make(..).unwrap_or_default()`. -/
def GreenTree.asNode (α : Type) [Leaf α] (g : GreenTree) : α :=
  (Leaf.make g).getD default

/-! ## `Node` implementations (`lexeme.rs`, `cursor.rs`) -/

/-- `impl Node for Lexeme<T>`'s `new` (lexeme.rs:181).  Note every
constructed lexeme except the `GreenTree::None` arm has `is_none = false`,
and the default (`_` arm, failed downcast) also has `is_none = false`. -/
def Lexeme.newN (α : Type) [Leaf α] [AnyRep α] (g : GreenTree) : Lexeme α :=
  match g with
  | GreenTree.leaf l =>
      let tok := if l.data.children.isEmpty then ({} : Token) else l.data.singleT
      { token := tok, value := (Leaf.make (α := α) (GreenTree.leaf l)).getD default,
        isNone := false }
  | GreenTree.token lx =>
      (match Lexeme.downcastRef α lx with
       | some v => { token := lx.token, isNone := false, value := v }
       | Option.none => default)
  | GreenTree.none => { token := {}, value := default, isNone := true }
  | _ => default

/-- `impl Node for Lexeme<T>`'s `unwrap` (lexeme.rs:221): box the value as
a dynamic token lexeme. -/
def Lexeme.unwrapN {α : Type} [AnyRep α] (x : Lexeme α) : GreenTree :=
  GreenTree.token { token := x.token, value := (tagOf α, encVal x.value), isNone := x.isNone }

/-- `impl Node for Option<T>`'s `new` (lexeme.rs:103). -/
def Option.newN (α : Type) [Node α] (g : GreenTree) (h : Heap) : Option α × Heap :=
  match g with
  | GreenTree.none => (Option.none, h)
  | GreenTree.empty => (Option.none, h)
  | _ =>
      let vh : α × Heap := Node.new g h
      (some vh.1, vh.2)

/-- `impl Node for Option<T>`'s `unwrap` (lexeme.rs:113). -/
def Option.unwrapN {α : Type} [Node α] : Option α → Heap → GreenTree × Heap
  | some v, h => Node.unwrap v h
  | Option.none, h => (GreenTree.none, h)

/-- Modelled from the spec: `GreenTree::as_child` is defined outside
`src/` (used by `Vec::unwrap`, cursor.rs:190): a leaf becomes a subtree
child, a token a token child. -/
def GreenTree.asChild : GreenTree → Child
  | GreenTree.leaf l => Child.tree l.data.name l.data.kind l.data.children
  | GreenTree.token lx => Child.token lx.token
  | _ => Child.tree Option.none TreeKind.error []

/-- The per-child conversion of `impl Node for Vec<T>`'s `new`
(cursor.rs:177): a subtree child goes through `T::new` of a freshly
wrapped green tree, a token child through `T::terminal(..)
.unwrap_or_default()`. -/
def vecNewGo (α : Type) [Node α] [AnyRep α] : List Child → Heap → List α × Heap
  | [], h => ([], h)
  | Child.tree n k cs :: rest, h =>
      let gh := GreenTree.newG { name := n, kind := k, children := cs } h
      let ah : α × Heap := Node.new gh.1 gh.2
      (ah.1 :: (vecNewGo α rest ah.2).1, (vecNewGo α rest ah.2).2)
  | Child.token tok :: rest, h =>
      ((Leaf.terminal (α := α) tok).getD default :: (vecNewGo α rest h).1,
       (vecNewGo α rest h).2)

/-- `impl Node for Vec<T>`'s `new` (cursor.rs:167).  The source match
predates the `Vec` green variant; a `vec` tree is mapped to the empty
list. -/
def vecNew (α : Type) [Node α] [AnyRep α] (g : GreenTree) (h : Heap) :
    List α × Heap :=
  match g with
  | GreenTree.empty => ([], h)
  | GreenTree.none => ([], h)
  | GreenTree.token _ => ([], h)
  | GreenTree.leaf l => vecNewGo α l.data.children h
  | GreenTree.vec _ => ([], h)

/-- The element conversion of `impl Node for Vec<T>`'s `unwrap`
(cursor.rs:188): `x.unwrap().as_child()` for each element in order. -/
def vecUnwrapGo (α : Type) [Node α] : List α → Heap → List Child × Heap
  | [], h => ([], h)
  | x :: xs, h =>
      let gh : GreenTree × Heap := Node.unwrap x h
      (gh.1.asChild :: (vecUnwrapGo α xs gh.2).1, (vecUnwrapGo α xs gh.2).2)

/-- `impl Node for Vec<T>`'s `unwrap` (cursor.rs:187): a `ListTree` leaf
over the elements' children, with an EMPTY named-children map
(`children: Default::default()`) and fresh tables (`names:
Rc::default()`; the embedding's unified leaf also carries a fresh `keys`
table). -/
def vecUnwrap (α : Type) [Node α] (xs : List α) (h : Heap) : GreenTree × Heap :=
  let ch := vecUnwrapGo α xs h
  let ns := ch.2.allocNames
  let ks := ns.2.allocKeys
  (GreenTree.leaf { data := { name := Option.none, kind := TreeKind.listTree,
                              children := ch.1 },
                    synthetic := false, children := [], namesRef := ns.1, keysRef := ks.1 },
   ks.2)

/-! ## Concrete instantiations

A minimal concrete node type and terminal type standing for the grammar
layer's typed nodes (the node vocabulary is opaque to this core; these are
the test instantiations the generic theorems are evaluated at). -/

/-- Modelled from the spec: a minimal domain node — it wraps the leaf tree
it was built from (`new` = `make(..).unwrap_or_default()`, `unwrap` wraps
the tree back up). -/
structure TreeNode where
  tree : Tree := {}
  deriving DecidableEq, Inhabited

/-- Modelled from the spec: a minimal terminal value — an identifier
token's text. -/
structure Ident where
  text : String := ""
  deriving DecidableEq, Inhabited

instance instTerminalIdent : Terminal Ident where
  terminal := fun tok =>
    if tok.kind = TokenKind.identK then some ⟨tok.text⟩ else Option.none

instance instLeafIdent : Leaf Ident where
  toInhabited := inferInstance
  make := fun _ => Option.none
  terminal := fun tok => (Terminal.terminal tok : Option Ident)

instance instLeafTreeNode : Leaf TreeNode where
  toInhabited := inferInstance
  make := fun g =>
    match g with
    | GreenTree.leaf l => some ⟨l.data⟩
    | _ => Option.none

instance instNodeTreeNode : Node TreeNode where
  new := fun g h => ((Leaf.make (α := TreeNode) g).getD default, h)
  unwrap := fun x h => GreenTree.newG x.tree h

instance instAnyRepIdent : AnyRep Ident where
  tag := 1
  enc := fun x => DynVal.strV x.text
  dec := fun v =>
    match v with
    | DynVal.strV s => some ⟨s⟩
    | _ => Option.none
  dec_enc := fun _ => rfl

instance instAnyRepTreeNode : AnyRep TreeNode where
  tag := 2
  enc := fun x => DynVal.treeV x.tree
  dec := fun v =>
    match v with
    | DynVal.treeV t => some ⟨t⟩
    | _ => Option.none
  dec_enc := fun _ => rfl

instance instAnyRepLexeme (α : Type) [AnyRep α] : AnyRep (Lexeme α) where
  tag := 10 + 2 * tagOf α
  enc := fun x => DynVal.lexV x.token x.isNone (encVal x.value)
  dec := fun v =>
    match v with
    | DynVal.lexV tok b inner =>
        (decVal inner).map fun a => { token := tok, isNone := b, value := a }
    | _ => Option.none
  dec_enc := fun a => by
    show (decVal (α := α) (encVal a.value)).map _ = some a
    rw [decVal_encVal, Option.map_some']

/-- Elementwise decoding of a dynamic list. -/
def decListGo (α : Type) [AnyRep α] : List DynVal → Option (List α)
  | [] => some []
  | v :: vs =>
      match decVal v, decListGo α vs with
      | some a, some rest => some (a :: rest)
      | _, _ => Option.none

theorem decListGo_map_encVal (α : Type) [AnyRep α] (xs : List α) :
    decListGo α (xs.map encVal) = some xs := by
  induction xs with
  | nil => rfl
  | cons x xs ih => simp [decListGo, decVal_encVal, ih]

instance instAnyRepList (α : Type) [AnyRep α] : AnyRep (List α) where
  tag := 1000 + tagOf α
  enc := fun xs => DynVal.listV (xs.map encVal)
  dec := fun v =>
    match v with
    | DynVal.listV vs => decListGo α vs
    | _ => Option.none
  dec_enc := fun xs => decListGo_map_encVal α xs

instance instLeafLexeme (α : Type) [Terminal α] [Leaf α] [AnyRep α] :
    Leaf (Lexeme α) where
  toInhabited := inferInstance
  make := fun g => some (Lexeme.newN α g)
  terminal := Lexeme.terminalLf

instance instNodeLexeme (α : Type) [Terminal α] [Leaf α] [AnyRep α] :
    Node (Lexeme α) where
  new := fun g h => (Lexeme.newN α g, h)
  unwrap := fun x h => (Lexeme.unwrapN x, h)

/-- The `Leaf` capability of `Option<T>` (outside `src/`; only the `Node`
impl, lexeme.rs:102, is claim-relevant). -/
instance instLeafOption (α : Type) [Leaf α] : Leaf (Option α) where
  default := Option.none
  make := fun g =>
    match g with
    | GreenTree.none => some Option.none
    | GreenTree.empty => some Option.none
    | _ => (Leaf.make (α := α) g).map some

instance instNodeOption (α : Type) [Node α] : Node (Option α) where
  new := fun g h => Option.newN α g h
  unwrap := fun x h => Option.unwrapN x h

/-- The `Leaf` capability of `Vec<T>` (outside `src/` and unused by the
claims; only the `Node` impl, cursor.rs:166, is claim-relevant). -/
instance instLeafList (α : Type) [Leaf α] : Leaf (List α) where
  default := []
  make := fun _ => Option.none

instance instNodeList (α : Type) [Node α] [AnyRep α] : Node (List α) where
  new := fun g h => vecNew α g h
  unwrap := fun xs h => vecUnwrap α xs h

/-! ## Supporting lemmas on the association-list cells -/

@[simp] theorem lookupId_nil {β : Type} (k : Nat) :
    lookupId ([] : List (Nat × β)) k = Option.none := rfl

@[simp] theorem lookupId_cons {β : Type} (k : Nat) (v : β) (rest : List (Nat × β)) (k' : Nat) :
    lookupId ((k, v) :: rest) k' = if k = k' then some v else lookupId rest k' := rfl

@[simp] theorem lookupStr_nil {β : Type} (k : String) :
    lookupStr ([] : List (String × β)) k = Option.none := rfl

@[simp] theorem lookupStr_cons {β : Type} (k : String) (v : β) (rest : List (String × β)) (k' : String) :
    lookupStr ((k, v) :: rest) k' = if k = k' then some v else lookupStr rest k' := rfl

@[simp] theorem lookupStr_insertStr_self {β : Type} (xs : List (String × β)) (k : String) (v : β) :
    lookupStr (insertStr xs k v) k = some v := by
  simp [insertStr]

theorem lookupStr_insertStr_ne {β : Type} (xs : List (String × β)) (k k' : String) (v : β)
    (hne : k ≠ k') : lookupStr (insertStr xs k v) k' = lookupStr xs k' := by
  simp [insertStr, hne]

theorem lookupId_setId_self {β : Type} (xs : List (Nat × β)) (k : Nat) (v : β)
    (hs : (lookupId xs k).isSome) : lookupId (setId xs k v) k = some v := by
  induction xs with
  | nil => simp at hs
  | cons p rest ih =>
      obtain ⟨a, b⟩ := p
      by_cases hak : a = k
      · subst hak
        simp [setId]
      · simp only [lookupId_cons, if_neg hak] at hs
        simp [setId, hak, ih hs]

theorem lookupId_setId_ne {β : Type} (xs : List (Nat × β)) (k k' : Nat) (v : β)
    (hne : k ≠ k') : lookupId (setId xs k v) k' = lookupId xs k' := by
  induction xs with
  | nil => simp [setId]
  | cons p rest ih =>
      obtain ⟨a, b⟩ := p
      by_cases hak : a = k
      · subst hak
        simp [setId, hne]
      · simp only [setId, if_neg hak, lookupId_cons, ih]

theorem lookupId_some_mem {β : Type} (xs : List (Nat × β)) (k : Nat) (v : β)
    (hl : lookupId xs k = some v) : (k, v) ∈ xs := by
  induction xs with
  | nil => simp at hl
  | cons p rest ih =>
      obtain ⟨a, b⟩ := p
      by_cases hak : a = k
      · subst hak
        rw [lookupId_cons, if_pos rfl] at hl
        cases hl
        exact List.mem_cons_self _ _
      · simp only [lookupId_cons, if_neg hak] at hl
        exact List.mem_cons_of_mem _ (ih hl)

/-- Every registered `names` table id is below the fresh counter. -/
def Heap.wfNames (h : Heap) : Prop := ∀ p ∈ h.names, p.1 < h.next

/-- Every registered `keys` table id is below the fresh counter. -/
def Heap.wfKeys (h : Heap) : Prop := ∀ p ∈ h.keys, p.1 < h.next

/-- Every registered slot id is below the fresh counter. -/
def Heap.wfSlots (h : Heap) : Prop := ∀ p ∈ h.slots, p.1 < h.next

theorem Heap.wfNames.namesLt_of_lookup {h : Heap} (hwf : h.wfNames) {id : Nat} {t : NamesTable}
    (hl : lookupId h.names id = some t) : id < h.next :=
  hwf _ (lookupId_some_mem _ _ _ hl)

theorem Heap.wfKeys.keysLt_of_lookup {h : Heap} (hwf : h.wfKeys) {id : Nat} {t : KeysTable}
    (hl : lookupId h.keys id = some t) : id < h.next :=
  hwf _ (lookupId_some_mem _ _ _ hl)

theorem Heap.wfSlots.slotsLt_of_lookup {h : Heap} (hwf : h.wfSlots) {id : Nat} {v : Value}
    (hl : lookupId h.slots id = some v) : id < h.next :=
  hwf _ (lookupId_some_mem _ _ _ hl)

/-- The observable property of being `Cursor::empty()`: the cursor's slot
holds a lazy default green leaf — default tree, empty named-children map,
non-synthetic, with registered empty `names` and `keys` tables. -/
def IsEmptyCursor {α : Type} (h : Heap) (c : Cursor α) : Prop :=
  ∃ l : AstLeaf,
    lookupId h.slots c.slot = some (Value.green (GreenTree.leaf l)) ∧
    l.data = {} ∧ l.children = [] ∧ l.synthetic = false ∧
    lookupId h.names l.namesRef = some [] ∧
    lookupId h.keys l.keysRef = some []

/-- `Cursor::empty()` observably satisfies `IsEmptyCursor`. -/
theorem isEmptyCursor_emptyC (α : Type) (h : Heap) :
    IsEmptyCursor (Cursor.emptyC α h).2 (Cursor.emptyC α h).1 := by
  refine ⟨{ data := {}, synthetic := false, children := [],
            namesRef := h.next + 1, keysRef := h.next }, ?_, rfl, rfl, rfl, ?_, ?_⟩ <;>
    simp [Cursor.emptyC, Cursor.defaultC, GreenTree.defaultG, Heap.allocKeys,
          Heap.allocNames, Heap.allocSlot]

/-- Whether the tree value is a structured leaf. -/
def GreenTree.isLeaf : GreenTree → Bool
  | GreenTree.leaf _ => true
  | _ => false

/-- The continuation of a `?`-sequenced chain after one successful step:
`branch` the cursor, short-circuiting a `Break` through `from_residual`. -/
def chain2 {β γ : Type} [Node β] [AnyRep β] [Node γ] [AnyRep γ]
    (c₂ : Cursor β) (k₃ : β → Heap → Cursor γ × Heap) (h : Heap) :
    Cursor γ × Heap :=
  match Cursor.branchC c₂ h with
  | (Option.none, h₁) => Cursor.fromResidual γ h₁
  | (some b, h₁) => k₃ b h₁

/-- A three-step navigation chain sequenced with the `?` operator
(`Try`/`FromResidual` of cursor.rs:247-279): each step's cursor is
`branch`ed; the first `Break` makes the whole chain yield
`Cursor::empty()` through `from_residual`, skipping the later steps. -/
def chain3 {α β γ : Type} [Node α] [AnyRep α] [Node β] [AnyRep β] [Node γ] [AnyRep γ]
    (c₁ : Cursor α) (k₂ : α → Heap → Cursor β × Heap)
    (k₃ : β → Heap → Cursor γ × Heap) (h : Heap) : Cursor γ × Heap :=
  match Cursor.branchC c₁ h with
  | (Option.none, h₁) => Cursor.fromResidual γ h₁
  | (some a, h₁) =>
      let (c₂, h₂) := k₂ a h₁
      chain2 c₂ k₃ h₂

/-- A concrete structured leaf over the default tree, with its `names`
table registered at id 0 and `keys` table at id 1 (used by concrete
witnesses). -/
def fixLeaf : AstLeaf :=
  { data := {}, synthetic := false, children := [], namesRef := 0, keysRef := 1 }

/-- A concrete heap: `fixLeaf`'s tables, both empty, and one cursor slot
(id 2) lazily backed by `fixLeaf`. -/
def fixHeap : Heap :=
  { slots := [(2, Value.green (GreenTree.leaf fixLeaf))],
    names := [(0, [])], keys := [(1, [])], next := 3 }

/-- A concrete heap with one cursor slot backed by `GreenTree::None`. -/
def fixHeapN : Heap :=
  { slots := [(0, Value.green GreenTree.none)], names := [], keys := [], next := 1 }

/-- A concrete identifier token. -/
def fixToken : Token := { kind := TokenKind.identK, text := "x", name := Option.none }

/-- A concrete named subtree with one token child. -/
def fixTree : Tree :=
  { name := some "lhs", kind := TreeKind.exprBinary,
    children := [Child.token { kind := TokenKind.numberK, text := "10", name := Option.none }] }

/-- A concrete compute function: materialize a default node in a fresh
slot. -/
def fixF : GreenTree → Heap → Cursor TreeNode × Heap :=
  fun _ h => Cursor.ofV ⟨{}⟩ h

/-- A second, different concrete compute function. -/
def fixG : GreenTree → Heap → Cursor TreeNode × Heap :=
  fun _ h => Cursor.emptyC TreeNode h

/-- A concrete navigation step for chains. -/
def fixK : TreeNode → Heap → Cursor TreeNode × Heap :=
  fun _ h => Cursor.emptyC TreeNode h

/-- A second, different concrete navigation step. -/
def fixK2 : TreeNode → Heap → Cursor TreeNode × Heap :=
  fun v h => Cursor.ofV v h

/-- The heap after the first `memoize("value", fixF)` on `fixLeaf` in
`fixHeap`: the materialized slot 3 and the cache entry `(tag 2, slot 3)`. -/
def c2Heap1 : Heap :=
  { slots := [(3, Value.ref 2 (DynVal.treeV {})), (2, Value.green (GreenTree.leaf fixLeaf))],
    names := [(0, [("value", (2, 3))])], keys := [(1, [])], next := 4 }

/-- The leaf produced by `GreenTree::as_new_node` on `fixLeaf` in
`fixHeap`: same data, fresh table ids 3 and 4. -/
def c1DetLeaf : AstLeaf :=
  { data := {}, synthetic := false, children := [], namesRef := 3, keysRef := 4 }

/-- The heap after that detach: the fresh tables registered and empty. -/
def c1DetHeap : Heap :=
  { slots := [(2, Value.green (GreenTree.leaf fixLeaf))],
    names := [(3, []), (0, [])], keys := [(4, []), (1, [])], next := 5 }

/-- The heap after `memoize("value", fixF)` on the ORIGINAL leaf in
`c1DetHeap`: the original's cache (table 0) is populated, the detached
copy's (table 3) is still empty. -/
def c1MemoHeap : Heap :=
  { slots := [(5, Value.ref 2 (DynVal.treeV {})), (2, Value.green (GreenTree.leaf fixLeaf))],
    names := [(3, []), (0, [("value", (2, 5))])], keys := [(4, []), (1, [])], next := 6 }

/-- The leaf produced by `GreenTree::default()` on the empty heap. -/
def c5Leaf : AstLeaf :=
  { data := {}, synthetic := false, children := [], namesRef := 1, keysRef := 0 }

/-- The heap produced by `GreenTree::default()` on the empty heap: both
tables registered and empty. -/
def c5Heap : Heap :=
  { slots := [], names := [(1, [])], keys := [(0, [])], next := 2 }

/-! ## The claims -/

/-- Claim C3: every listed tree-value accessor is total on the non-leaf
variants (`Token`, `Vec`, `None`, `Empty`): `kind` is the `Error`
sentinel, `children` is absent, token lookups give the empty vector or
the default token, `has` is false, and every cursor-returning accessor
(`filter`, `terminal`, `filter_terminal`, `at`, `named_at`,
`named_terminal`) gives exactly `Cursor::empty()`, which observably holds
the default leaf; none of these arms contains a fallible operation, so no
panic is possible. -/
theorem C3_total_accessors (α τ : Type) [Node α] [AnyRep α] [AnyRep (List α)]
    [Terminal τ] [AnyRep (Lexeme τ)] [AnyRep (List (Lexeme τ))]
    (g : GreenTree) (hg : g.isLeaf = false) :
    g.kindOf = TreeKind.error ∧
    g.childrenOpt = Option.none ∧
    (∀ k, g.anyToken k = []) ∧
    (∀ k, g.tokenOf k = {}) ∧
    (∀ name, g.has name = false) ∧
    (∀ h, GreenTree.filter α g h = Cursor.emptyC (List α) h) ∧
    (∀ n h, GreenTree.terminal τ g n h = Cursor.emptyC (Lexeme τ) h) ∧
    (∀ h, GreenTree.filterTerminal τ g h = Cursor.emptyC (List (Lexeme τ)) h) ∧
    (∀ n h, GreenTree.at α g n h = Cursor.emptyC α h) ∧
    (∀ name h, GreenTree.namedAt α g name h = Cursor.emptyC α h) ∧
    (∀ name h, GreenTree.namedTerminal τ g name h = Cursor.emptyC (Lexeme τ) h) ∧
    (∀ h, IsEmptyCursor (Cursor.emptyC α h).2 (Cursor.emptyC α h).1) := by
  cases g with
  | leaf l => simp [GreenTree.isLeaf] at hg
  | vec xs =>
      exact ⟨rfl, rfl, fun _ => rfl, fun _ => rfl, fun _ => rfl, fun _ => rfl,
        fun _ _ => rfl, fun _ => rfl, fun _ _ => rfl, fun _ _ => rfl, fun _ _ => rfl,
        fun h => isEmptyCursor_emptyC α h⟩
  | token lx =>
      exact ⟨rfl, rfl, fun _ => rfl, fun _ => rfl, fun _ => rfl, fun _ => rfl,
        fun _ _ => rfl, fun _ => rfl, fun _ _ => rfl, fun _ _ => rfl, fun _ _ => rfl,
        fun h => isEmptyCursor_emptyC α h⟩
  | none =>
      exact ⟨rfl, rfl, fun _ => rfl, fun _ => rfl, fun _ => rfl, fun _ => rfl,
        fun _ _ => rfl, fun _ => rfl, fun _ _ => rfl, fun _ _ => rfl, fun _ _ => rfl,
        fun h => isEmptyCursor_emptyC α h⟩
  | empty =>
      exact ⟨rfl, rfl, fun _ => rfl, fun _ => rfl, fun _ => rfl, fun _ => rfl,
        fun _ _ => rfl, fun _ => rfl, fun _ _ => rfl, fun _ _ => rfl, fun _ _ => rfl,
        fun h => isEmptyCursor_emptyC α h⟩

/-- Witness for C3 at the `None` variant with concrete node/terminal
types. -/
theorem C3_total_accessors_witness :
    GreenTree.none.isLeaf = false ∧
    GreenTree.none.kindOf = TreeKind.error ∧
    GreenTree.none.has "value" = false ∧
    GreenTree.namedAt TreeNode GreenTree.none "value" fixHeap
      = Cursor.emptyC TreeNode fixHeap :=
  ⟨rfl, (C3_total_accessors TreeNode Ident GreenTree.none rfl).1,
    (C3_total_accessors TreeNode Ident GreenTree.none rfl).2.2.2.2.1 "value",
    (C3_total_accessors TreeNode Ident GreenTree.none rfl).2.2.2.2.2.2.2.2.2.1 "value" fixHeap⟩

/-- Claim C9: on a leaf-backed cursor `is_empty()` is true exactly when
the leaf has at least one child (the source computes
`!children.is_empty()`); it is false on `Token`, `Empty` and `None`
backing; and a fresh `Cursor::empty()` (backed by the default, childless
leaf) reports both `is_empty() = false` and `is_none() = false`. -/
theorem C9_isEmpty_semantics (α : Type) [Node α] [AnyRep α] :
    (∀ (h : Heap) (c : Cursor α) (l : AstLeaf),
        h.readSlot c.slot = Value.green (GreenTree.leaf l) →
        Cursor.isEmptyC c h = (!(l.data.children.isEmpty), h) ∧
        ((Cursor.isEmptyC c h).1 = true ↔ l.data.children ≠ []) ∧
        Cursor.isNoneC c h = (false, h)) ∧
    (∀ (h : Heap) (c : Cursor α) (lx : Lexeme DynAny),
        h.readSlot c.slot = Value.green (GreenTree.token lx) →
        Cursor.isEmptyC c h = (false, h) ∧ Cursor.isNoneC c h = (false, h)) ∧
    (∀ (h : Heap) (c : Cursor α),
        h.readSlot c.slot = Value.green GreenTree.empty →
        Cursor.isEmptyC c h = (false, h) ∧ Cursor.isNoneC c h = (false, h)) ∧
    (∀ (h : Heap) (c : Cursor α),
        h.readSlot c.slot = Value.green GreenTree.none →
        Cursor.isEmptyC c h = (false, h) ∧ Cursor.isNoneC c h = (true, h)) ∧
    (∀ h : Heap,
        (Cursor.isEmptyC (Cursor.emptyC α h).1 (Cursor.emptyC α h).2).1 = false ∧
        (Cursor.isNoneC (Cursor.emptyC α h).1 (Cursor.emptyC α h).2).1 = false) := by
  refine ⟨?_, ?_, ?_, ?_, ?_⟩
  · intro h c l hs
    refine ⟨?_, ?_, ?_⟩ <;>
      simp [Cursor.isEmptyC, Cursor.isNoneC, Value.greenOf, hs, List.isEmpty_iff]
  · intro h c lx hs
    exact ⟨by simp [Cursor.isEmptyC, Value.greenOf, hs],
           by simp [Cursor.isNoneC, Value.greenOf, hs]⟩
  · intro h c hs
    exact ⟨by simp [Cursor.isEmptyC, Value.greenOf, hs],
           by simp [Cursor.isNoneC, Value.greenOf, hs]⟩
  · intro h c hs
    exact ⟨by simp [Cursor.isEmptyC, Value.greenOf, hs],
           by simp [Cursor.isNoneC, Value.greenOf, hs]⟩
  · intro h
    constructor <;>
      simp [Cursor.isEmptyC, Cursor.isNoneC, Value.greenOf, Cursor.emptyC,
            Cursor.defaultC, GreenTree.defaultG, Heap.allocKeys, Heap.allocNames,
            Heap.allocSlot, Heap.readSlot]

/-- Witness for C9 on a concrete `None`-backed cursor and the fixture
heap. -/
theorem C9_isEmpty_semantics_witness :
    fixHeapN.readSlot 0 = Value.green GreenTree.none ∧
    Cursor.isEmptyC (⟨0⟩ : Cursor TreeNode) fixHeapN = (false, fixHeapN) ∧
    (Cursor.isEmptyC (Cursor.emptyC TreeNode {}).1 (Cursor.emptyC TreeNode {}).2).1 = false :=
  ⟨by decide,
   ((C9_isEmpty_semantics TreeNode).2.2.2.1 fixHeapN ⟨0⟩ (by decide)).1,
   ((C9_isEmpty_semantics TreeNode).2.2.2.2 {}).1⟩

/-- Claim C8: a cursor holding a materialized value — from `Cursor::of`,
`From<Rc<T>>`, `From<Option<T>>` on `Some`, or `replace` — reads back
exactly that value (`as_leaf`, and `branch` continues with it) without
re-deriving from any tree and without changing the heap; `replace` and
`set` overwrite the whole slot with the new contents; and a write to any
other slot leaves this cursor's slot untouched. -/
theorem C8_materialized_reads (α : Type) [Node α] [AnyRep α] :
    (∀ (v : α) (h : Heap),
        Cursor.asLeaf (Cursor.ofV v h).1 (Cursor.ofV v h).2 = (v, (Cursor.ofV v h).2)) ∧
    (∀ (v : α) (h : Heap),
        Cursor.asLeaf (Cursor.fromRc v h).1 (Cursor.fromRc v h).2 = (v, (Cursor.fromRc v h).2)) ∧
    (∀ (v : α) (h : Heap),
        Cursor.asLeaf (Cursor.fromOption (some v) h).1 (Cursor.fromOption (some v) h).2
          = (v, (Cursor.fromOption (some v) h).2)) ∧
    (∀ (c : Cursor α) (v : α) (h : Heap), (lookupId h.slots c.slot).isSome →
        (Cursor.replaceC c v h).readSlot c.slot = Value.ref (tagOf α) (encVal v)) ∧
    (∀ (c : Cursor α) (v : α) (h : Heap),
        h.readSlot c.slot = Value.ref (tagOf α) (encVal v) →
        Cursor.asLeaf c h = (v, h) ∧ Cursor.branchC c h = (some v, h)) ∧
    (∀ (c : Cursor α) (id : Nat) (w : Value) (h : Heap), id ≠ c.slot →
        (h.writeSlot id w).readSlot c.slot = h.readSlot c.slot) := by
  refine ⟨?_, ?_, ?_, ?_, ?_, ?_⟩
  · intro v h
    simp [Cursor.ofV, Cursor.asLeaf, Heap.allocSlot, Heap.readSlot, decVal_encVal]
  · intro v h
    simp [Cursor.fromRc, Cursor.asLeaf, Heap.allocSlot, Heap.readSlot, decVal_encVal]
  · intro v h
    simp [Cursor.fromOption, Cursor.ofV, Cursor.asLeaf, Heap.allocSlot,
          Heap.readSlot, decVal_encVal]
  · intro c v h hs
    simp [Cursor.replaceC, Heap.writeSlot, Heap.readSlot, lookupId_setId_self _ _ _ hs]
  · intro c v h hs
    exact ⟨by simp [Cursor.asLeaf, hs, decVal_encVal],
           by simp [Cursor.branchC, hs, decVal_encVal]⟩
  · intro c id w h hne
    simp [Heap.writeSlot, Heap.readSlot, lookupId_setId_ne _ _ _ _ hne]

/-- Witness for C8 with a concrete materialized cursor. -/
theorem C8_materialized_reads_witness :
    Cursor.asLeaf (Cursor.ofV (⟨fixTree⟩ : TreeNode) fixHeap).1
        (Cursor.ofV (⟨fixTree⟩ : TreeNode) fixHeap).2
      = (⟨fixTree⟩, (Cursor.ofV (⟨fixTree⟩ : TreeNode) fixHeap).2) ∧
    (fixHeap.writeSlot 0 (Value.green GreenTree.empty)).readSlot 2 = fixHeap.readSlot 2 :=
  ⟨(C8_materialized_reads TreeNode).1 ⟨fixTree⟩ fixHeap,
   (C8_materialized_reads TreeNode).2.2.2.2.2 ⟨2⟩ 0 (Value.green GreenTree.empty) fixHeap
     (by decide)⟩

/-- Claim C2: on a structured leaf whose cache misses the name, `memoize`
invokes the compute function once against the node, returns exactly its
cursor `c₁`, and stores `c₁`'s slot under the name; afterwards every
subsequent call for the same name — with ANY compute function — returns a
cursor sharing `c₁`'s backing slot and leaves the heap unchanged (so the
compute function is never invoked again). -/
theorem C2_memoize_stability {α : Type} [Node α] [AnyRep α]
    (l : AstLeaf) (name : String) (f : GreenTree → Heap → Cursor α × Heap)
    (h : Heap) (tbl tbl₁ : NamesTable) (c₁ : Cursor α) (h₁ : Heap)
    (htbl : lookupId h.names l.namesRef = some tbl)
    (hmiss : lookupStr tbl name = Option.none)
    (htbl₁ : lookupId ((f (GreenTree.leaf l) h).2).names l.namesRef = some tbl₁)
    (hc₁ : c₁ = (f (GreenTree.leaf l) h).1)
    (hh₁ : h₁ = ((f (GreenTree.leaf l) h).2).setNames l.namesRef
                  (insertStr tbl₁ name (tagOf α, c₁.slot))) :
    GreenTree.memoize (GreenTree.leaf l) name f h = some (c₁, h₁) ∧
    lookupStr (h₁.namesAt l.namesRef) name = some (tagOf α, c₁.slot) ∧
    (∀ g' : GreenTree → Heap → Cursor α × Heap,
        GreenTree.memoize (GreenTree.leaf l) name g' h₁ = some (⟨c₁.slot⟩, h₁)) := by
  have hsome : (lookupId ((f (GreenTree.leaf l) h).2).names l.namesRef).isSome := by
    rw [htbl₁]; rfl
  have hstore : lookupStr (h₁.namesAt l.namesRef) name = some (tagOf α, c₁.slot) := by
    subst hh₁
    simp [Heap.namesAt, Heap.setNames, lookupId_setId_self _ _ _ hsome]
  refine ⟨?_, hstore, ?_⟩
  · rcases hfc : f (GreenTree.leaf l) h with ⟨cf, hf⟩
    rw [hfc] at htbl₁
    subst hh₁ hc₁
    simp [GreenTree.memoize, Heap.namesAt, htbl, hmiss, hfc, htbl₁]
  · intro g'
    have hAt : Heap.namesAt h₁ l.namesRef = insertStr tbl₁ name (tagOf α, c₁.slot) := by
      subst hh₁
      simp [Heap.namesAt, Heap.setNames, lookupId_setId_self _ _ _ hsome]
    simp [GreenTree.memoize, hAt]

/-- Witness for C2 at the concrete fixtures: the first call stores slot 3,
the second call (with a different compute function) returns the same
slot 3 and the unchanged heap. -/
theorem C2_memoize_stability_witness :
    GreenTree.memoize (GreenTree.leaf fixLeaf) "value" fixF fixHeap
      = some (⟨3⟩, c2Heap1) ∧
    lookupStr (c2Heap1.namesAt fixLeaf.namesRef) "value" = some (tagOf TreeNode, 3) ∧
    GreenTree.memoize (GreenTree.leaf fixLeaf) "value" fixG c2Heap1
      = some (⟨3⟩, c2Heap1) :=
  have hmain := C2_memoize_stability fixLeaf "value" fixF fixHeap [] [] ⟨3⟩ c2Heap1
    (by decide) (by decide) (by decide) (by decide) (by decide)
  ⟨hmain.1, hmain.2.1, hmain.2.2 fixG⟩

/-- Claim C10: `memoize` on every non-leaf variant returns
`Cursor::empty()` (over the heap in which it allocates the empty cursor),
never invokes the compute function — the result is identical for every
compute function — and stores nothing: every registered cache and side
table is preserved verbatim. -/
theorem C10_memoize_non_leaf {α : Type} [Node α] [AnyRep α] (g : GreenTree)
    (hg : g.isLeaf = false) (name : String)
    (f : GreenTree → Heap → Cursor α × Heap) (h : Heap)
    (hwfN : h.wfNames) (hwfK : h.wfKeys) :
    GreenTree.memoize g name f h
      = some ((Cursor.emptyC α h).1, (Cursor.emptyC α h).2) ∧
    (∀ f', GreenTree.memoize g name f' h = GreenTree.memoize g name f h) ∧
    IsEmptyCursor (Cursor.emptyC α h).2 (Cursor.emptyC α h).1 ∧
    (∀ id tbl, lookupId h.names id = some tbl →
        lookupId ((Cursor.emptyC α h).2).names id = some tbl) ∧
    (∀ id tbl, lookupId h.keys id = some tbl →
        lookupId ((Cursor.emptyC α h).2).keys id = some tbl) := by
  have hnames : ∀ id tbl, lookupId h.names id = some tbl →
      lookupId ((Cursor.emptyC α h).2).names id = some tbl := by
    intro id tbl hl
    have hlt : id < h.next := hwfN.namesLt_of_lookup hl
    simp only [Cursor.emptyC, Cursor.defaultC, GreenTree.defaultG, Heap.allocKeys,
      Heap.allocNames, Heap.allocSlot, lookupId_cons]
    rw [if_neg (by omega), hl]
  have hkeys : ∀ id tbl, lookupId h.keys id = some tbl →
      lookupId ((Cursor.emptyC α h).2).keys id = some tbl := by
    intro id tbl hl
    have hlt : id < h.next := hwfK.keysLt_of_lookup hl
    simp only [Cursor.emptyC, Cursor.defaultC, GreenTree.defaultG, Heap.allocKeys,
      Heap.allocNames, Heap.allocSlot, lookupId_cons]
    rw [if_neg (by omega), hl]
  cases g with
  | leaf l => simp [GreenTree.isLeaf] at hg
  | vec xs =>
      exact ⟨rfl, fun _ => rfl, isEmptyCursor_emptyC α h, hnames, hkeys⟩
  | token lx =>
      exact ⟨rfl, fun _ => rfl, isEmptyCursor_emptyC α h, hnames, hkeys⟩
  | none =>
      exact ⟨rfl, fun _ => rfl, isEmptyCursor_emptyC α h, hnames, hkeys⟩
  | empty =>
      exact ⟨rfl, fun _ => rfl, isEmptyCursor_emptyC α h, hnames, hkeys⟩

/-- Witness for C10 on the `Token` variant over the fixture heap. -/
theorem C10_memoize_non_leaf_witness :
    (GreenTree.token { token := fixToken, value := (1, DynVal.strV "x"), isNone := false }).isLeaf
      = false ∧
    GreenTree.memoize
        (GreenTree.token { token := fixToken, value := (1, DynVal.strV "x"), isNone := false })
        "value" fixF fixHeap
      = some ((Cursor.emptyC TreeNode fixHeap).1, (Cursor.emptyC TreeNode fixHeap).2) ∧
    lookupId ((Cursor.emptyC TreeNode fixHeap).2).names 0 = some [] :=
  have hm := C10_memoize_non_leaf
    (GreenTree.token { token := fixToken, value := (1, DynVal.strV "x"), isNone := false })
    rfl "value" fixF fixHeap
    (by show ∀ p ∈ fixHeap.names, p.1 < fixHeap.next; decide)
    (by show ∀ p ∈ fixHeap.keys, p.1 < fixHeap.next; decide)
  ⟨rfl, hm.1, hm.2.2.2.1 0 [] (by decide)⟩

/-- Claim C4: in a `?`-sequenced chain, a first step backed by a `None` or
`Empty` tree, or by a token that fails to downcast to the target type,
makes the whole chain yield exactly `Cursor::empty()` on the unchanged
heap; the result is identical for every choice of the later steps (they
are not evaluated), and no exceptional control flow is involved (`branch`
and `from_residual` are plain values).  A first step backed by a leaf
continues the chain with `T::new` of that leaf; a materialized first step
continues with the stored value. -/
theorem C4_try_short_circuit {α β γ : Type} [Node α] [AnyRep α] [Node β] [AnyRep β]
    [Node γ] [AnyRep γ] (c₁ : Cursor α) (h : Heap) :
    (∀ (_ : h.readSlot c₁.slot = Value.green GreenTree.none ∨
           h.readSlot c₁.slot = Value.green GreenTree.empty ∨
           ∃ lx, h.readSlot c₁.slot = Value.green (GreenTree.token lx) ∧
                 Lexeme.downcastRef α lx = Option.none)
       (k₂ : α → Heap → Cursor β × Heap) (k₃ : β → Heap → Cursor γ × Heap),
       chain3 c₁ k₂ k₃ h = Cursor.emptyC γ h ∧
       (∀ (k₂' : α → Heap → Cursor β × Heap) (k₃' : β → Heap → Cursor γ × Heap),
          chain3 c₁ k₂' k₃' h = chain3 c₁ k₂ k₃ h) ∧
       IsEmptyCursor (chain3 c₁ k₂ k₃ h).2 (chain3 c₁ k₂ k₃ h).1) ∧
    (∀ l (_ : h.readSlot c₁.slot = Value.green (GreenTree.leaf l))
       (k₂ : α → Heap → Cursor β × Heap) (k₃ : β → Heap → Cursor γ × Heap),
       chain3 c₁ k₂ k₃ h =
         (let ah := Node.new (GreenTree.leaf l) h
          let ch := k₂ ah.1 ah.2
          chain2 ch.1 k₃ ch.2)) ∧
    (∀ (v : α) (_ : h.readSlot c₁.slot = Value.ref (tagOf α) (encVal v))
       (k₂ : α → Heap → Cursor β × Heap) (k₃ : β → Heap → Cursor γ × Heap),
       chain3 c₁ k₂ k₃ h =
         (let ch := k₂ v h
          chain2 ch.1 k₃ ch.2)) ∧
    (∀ (v : α) (_ : h.readSlot c₁.slot = Value.ref (tagOf α) (encVal v))
       (k₂ : α → Heap → Cursor β × Heap)
       (_ : (k₂ v h).2.readSlot (k₂ v h).1.slot = Value.green GreenTree.none ∨
            (k₂ v h).2.readSlot (k₂ v h).1.slot = Value.green GreenTree.empty)
       (k₃ k₃' : β → Heap → Cursor γ × Heap),
       chain3 c₁ k₂ k₃ h = Cursor.emptyC γ (k₂ v h).2 ∧
       chain3 c₁ k₂ k₃ h = chain3 c₁ k₂ k₃' h) := by
  refine ⟨?_, ?_, ?_, ?_⟩
  · intro hfail k₂ k₃
    have hbr : Cursor.branchC c₁ h = (Option.none, h) := by
      rcases hfail with hs | hs | ⟨lx, hs, hlx⟩
      · simp [Cursor.branchC, hs]
      · simp [Cursor.branchC, hs]
      · simp [Cursor.branchC, hs, hlx]
    have hch : chain3 c₁ k₂ k₃ h = Cursor.emptyC γ h := by
      simp [chain3, hbr, Cursor.fromResidual]
    refine ⟨hch, ?_, ?_⟩
    · intro k₂' k₃'
      rw [hch]
      simp [chain3, hbr, Cursor.fromResidual]
    · rw [hch]
      exact isEmptyCursor_emptyC γ h
  · intro l hs k₂ k₃
    have hbr : Cursor.branchC c₁ h
        = (some ((Node.new (GreenTree.leaf l) h : α × Heap)).1,
           ((Node.new (GreenTree.leaf l) h : α × Heap)).2) := by
      simp [Cursor.branchC, hs]
    simp [chain3, hbr]
  · intro v hs k₂ k₃
    have hbr : Cursor.branchC c₁ h = (some v, h) := by
      simp [Cursor.branchC, hs, decVal_encVal]
    simp [chain3, hbr]
  · intro v hs k₂ hfail k₃ k₃'
    have hbr : Cursor.branchC c₁ h = (some v, h) := by
      simp [Cursor.branchC, hs, decVal_encVal]
    have hbr₂ : Cursor.branchC (k₂ v h).1 (k₂ v h).2 = (Option.none, (k₂ v h).2) := by
      rcases hfail with hs₂ | hs₂ <;> simp [Cursor.branchC, hs₂]
    constructor <;> simp [chain3, chain2, hbr, hbr₂, Cursor.fromResidual]

/-- Witness for C4 on a `None`-backed first step with concrete later
steps: the chain is the empty cursor and ignores the later steps. -/
theorem C4_try_short_circuit_witness :
    chain3 (⟨0⟩ : Cursor TreeNode) fixK fixK fixHeapN
      = Cursor.emptyC TreeNode fixHeapN ∧
    chain3 (⟨0⟩ : Cursor TreeNode) fixK2 fixK2 fixHeapN
      = chain3 (⟨0⟩ : Cursor TreeNode) fixK fixK fixHeapN :=
  have hm := (C4_try_short_circuit (⟨0⟩ : Cursor TreeNode) fixHeapN).1
    (Or.inl (by decide)) fixK fixK
  ⟨hm.1, hm.2.1 fixK2 fixK2⟩

/-- Claim C1 (amended): `GreenTree::as_new_node` on a structured leaf
yields a copy with the same tree data and fresh, registered, EMPTY
`names` and `keys` tables; the heap's slots and the original's tables are
untouched (so the original and all cursors referencing it are
unaffected); populating the original's cache — by `insert` or by
`memoize` — leaves the detached copy's cache empty, and populating the
detached copy's cache leaves the original's cache unchanged.
`Cursor::as_new_node`, however, only clones the backing slot: the
detached copy of a leaf-backed cursor still references the SAME leaf,
with its shared cache tables (the part that refutes the claim as
stated). -/
theorem C1_detach_amended {α : Type} [Node α] [AnyRep α]
    (l : AstLeaf) (h : Heap) (tbl0 : NamesTable) (kt0 : KeysTable)
    (hwfN : h.wfNames) (hwfK : h.wfKeys) (hwfS : h.wfSlots)
    (hreg : lookupId h.names l.namesRef = some tbl0)
    (hregk : lookupId h.keys l.keysRef = some kt0)
    (l' : AstLeaf) (h' : Heap)
    (hl' : l' = { data := l.data, synthetic := l.synthetic,
                  children := childrenFn l.data, namesRef := h.next,
                  keysRef := h.next + 1 })
    (hh' : h' = { slots := h.slots, names := (h.next, []) :: h.names,
                  keys := (h.next + 1, []) :: h.keys, next := h.next + 2 }) :
    GreenTree.asNewNode (GreenTree.leaf l) h = (GreenTree.leaf l', h') ∧
    l'.data = l.data ∧
    lookupId h'.names l'.namesRef = some [] ∧
    lookupId h'.keys l'.keysRef = some [] ∧
    h'.slots = h.slots ∧
    lookupId h'.names l.namesRef = some tbl0 ∧
    lookupId h'.keys l.keysRef = some kt0 ∧
    l'.namesRef ≠ l.namesRef ∧
    l'.keysRef ≠ l.keysRef ∧
    (∀ (name : String) (v : α),
        lookupId (GreenTree.insertNamed (GreenTree.leaf l) name v h').names l'.namesRef
          = some []) ∧
    (∀ (name : String) (v : α),
        lookupId (GreenTree.insertNamed (GreenTree.leaf l') name v h').names l.namesRef
          = some tbl0) ∧
    (∀ (name : String) (f : GreenTree → Heap → Cursor α × Heap) (c₂ : Cursor α) (h₂ : Heap),
        lookupId ((f (GreenTree.leaf l) h').2).names l'.namesRef = some [] →
        GreenTree.memoize (GreenTree.leaf l) name f h' = some (c₂, h₂) →
        lookupId h₂.names l'.namesRef = some []) ∧
    (∀ c : Cursor α, h.readSlot c.slot = Value.green (GreenTree.leaf l) →
        (Cursor.asNewNodeC c h).1.slot ≠ c.slot ∧
        (Cursor.asNewNodeC c h).2.readSlot (Cursor.asNewNodeC c h).1.slot
          = Value.green (GreenTree.leaf l)) := by
  have hltN : l.namesRef < h.next := hwfN.namesLt_of_lookup hreg
  have hltK : l.keysRef < h.next := hwfK.keysLt_of_lookup hregk
  subst hl' hh'
  refine ⟨?_, rfl, ?_, ?_, rfl, ?_, ?_,
    (by show h.next ≠ l.namesRef; omega),
    (by show h.next + 1 ≠ l.keysRef; omega), ?_, ?_, ?_, ?_⟩
  · simp [GreenTree.asNewNode, Heap.allocNames, Heap.allocKeys]
  · simp
  · simp
  · simp only [lookupId_cons]
    rw [if_neg (by omega), hreg]
  · simp only [lookupId_cons]
    rw [if_neg (by omega), hregk]
  · intro name v
    simp only [GreenTree.insertNamed, Cursor.ofV, Heap.allocSlot, Heap.setNames,
      Heap.namesAt]
    rw [lookupId_setId_ne _ _ _ _ (by omega : l.namesRef ≠ h.next)]
    simp
  · intro name v
    simp only [GreenTree.insertNamed, Cursor.ofV, Heap.allocSlot, Heap.setNames,
      Heap.namesAt]
    rw [lookupId_setId_ne _ _ _ _ (by omega : (h.next : Nat) ≠ l.namesRef)]
    simp only [lookupId_cons]
    rw [if_neg (by omega), hreg]
  · intro name f c₂ h₂ hf hm
    have hAt : Heap.namesAt
        { slots := h.slots, names := (h.next, []) :: h.names,
          keys := (h.next + 1, []) :: h.keys, next := h.next + 2 } l.namesRef = tbl0 := by
      simp only [Heap.namesAt, lookupId_cons]
      rw [if_neg (by omega), hreg]
      rfl
    rw [GreenTree.memoize, hAt] at hm
    cases hls : lookupStr tbl0 name with
    | some e =>
        rw [hls] at hm
        by_cases ht : e.1 = tagOf α
        · simp only [ht, if_true] at hm
          cases hm
          simp
        · simp only [ht, if_false] at hm
          cases hm
    | none =>
        rw [hls] at hm
        rcases hfc : f (GreenTree.leaf l)
            { slots := h.slots, names := (h.next, []) :: h.names,
              keys := (h.next + 1, []) :: h.keys, next := h.next + 2 } with ⟨cf, hfh⟩
        rw [hfc] at hm hf
        simp only [] at hm hf
        cases hm
        simp only [Heap.setNames]
        rw [lookupId_setId_ne _ _ _ _ (by omega : l.namesRef ≠ h.next)]
        exact hf
  · intro c hs
    have hlk : lookupId h.slots c.slot = some (Value.green (GreenTree.leaf l)) := by
      cases hlk : lookupId h.slots c.slot with
      | some v =>
          rw [Heap.readSlot, hlk] at hs
          exact congrArg some hs
      | none =>
          rw [Heap.readSlot, hlk] at hs
          simp at hs
    have hlt : c.slot < h.next := hwfS.slotsLt_of_lookup hlk
    constructor
    · simp only [Cursor.asNewNodeC, Heap.allocSlot]
      omega
    · simp [Cursor.asNewNodeC, Heap.allocSlot, Heap.readSlot, hlk]

/-- Counterexample to C1 as stated: the detached copy produced by
`Cursor::as_new_node` references the same leaf (the slot clone shares the
`names` table id 0), and a subsequent `memoize("value", ..)` through the
original populates the very table the detached copy reads — its cache is
not empty and not isolated. -/
theorem C1_counterexample :
    (Cursor.asNewNodeC (⟨2⟩ : Cursor TreeNode) fixHeap).2.readSlot
        (Cursor.asNewNodeC (⟨2⟩ : Cursor TreeNode) fixHeap).1.slot
      = Value.green (GreenTree.leaf fixLeaf) ∧
    ((GreenTree.memoize (GreenTree.leaf fixLeaf) "value" fixF
        (Cursor.asNewNodeC (⟨2⟩ : Cursor TreeNode) fixHeap).2).map
      (fun p => lookupStr (p.2.namesAt fixLeaf.namesRef) "value")).getD Option.none
      = some (2, 4) := by
  constructor <;> decide

/-- Witness for C1 (amended) at the concrete fixtures. -/
theorem C1_detach_amended_witness :
    GreenTree.asNewNode (GreenTree.leaf fixLeaf) fixHeap
      = (GreenTree.leaf c1DetLeaf, c1DetHeap) ∧
    lookupId c1DetHeap.names c1DetLeaf.namesRef = some [] ∧
    lookupId
      (GreenTree.insertNamed (GreenTree.leaf fixLeaf) "value" (⟨{}⟩ : TreeNode)
        c1DetHeap).names c1DetLeaf.namesRef = some [] ∧
    lookupId c1MemoHeap.names c1DetLeaf.namesRef = some [] :=
  have hc1 := C1_detach_amended (α := TreeNode) fixLeaf fixHeap [] []
    (by show ∀ p ∈ fixHeap.names, p.1 < fixHeap.next; decide)
    (by show ∀ p ∈ fixHeap.keys, p.1 < fixHeap.next; decide)
    (by show ∀ p ∈ fixHeap.slots, p.1 < fixHeap.next; decide)
    (by decide) (by decide) c1DetLeaf c1DetHeap (by decide) (by decide)
  ⟨hc1.1, hc1.2.2.1,
   hc1.2.2.2.2.2.2.2.2.2.1 "value" ⟨{}⟩,
   hc1.2.2.2.2.2.2.2.2.2.2.2.1 "value" fixF ⟨5⟩ c1MemoHeap (by decide) (by decide)⟩

/-- Claim C5 is violated by the code: on a freshly created (default) leaf
— whose side table is registered but empty — `key` panics instead of
attaching and returning the default, and `insert_key` panics on any
first attach: both unwrap the `Option` that `HashMap::insert` returns
(the PREVIOUS binding, `None` on a first attach).  `Option.none` is the
embedded panic. -/
theorem C5_key_first_attach_panics :
    GreenTree.defaultG {} = (GreenTree.leaf c5Leaf, c5Heap) ∧
    GreenTree.keyGet TreeNode (GreenTree.leaf c5Leaf) "binding" c5Heap = Option.none ∧
    GreenTree.insertKey (GreenTree.leaf c5Leaf) "binding" (⟨fixTree⟩ : TreeNode) c5Heap
      = Option.none := by
  refine ⟨by decide, by decide, by decide⟩

/-- Counterexample to C6 as stated: the placeholder lexeme built from
`GreenTree::None` has `is_none = true`, but rebuilding it from its
unwrapped tree form resets `is_none` to `false` — the round trip is not
structurally equal. -/
theorem C6_roundtrip_counterexample :
    (Lexeme.newN Ident GreenTree.none).isNone = true ∧
    ((Node.new ((Node.unwrap (Lexeme.newN Ident GreenTree.none) ({} : Heap)).1)
        ((Node.unwrap (Lexeme.newN Ident GreenTree.none) ({} : Heap)).2)).1 : Lexeme Ident)
      ≠ Lexeme.newN Ident GreenTree.none := by
  refine ⟨by decide, by decide⟩

/-- Round trip of the element conversions of `Vec<TreeNode>`: rebuilding
each child produced by `unwrap` yields the original element. -/
theorem vecGo_roundtrip : ∀ (xs : List TreeNode) (h h' : Heap),
    (vecNewGo TreeNode (vecUnwrapGo TreeNode xs h).1 h').1 = xs := by
  intro xs
  induction xs with
  | nil => intro h h'; rfl
  | cons x rest ih =>
      intro h h'
      simp only [vecUnwrapGo, vecNewGo, instNodeTreeNode, instLeafTreeNode,
        GreenTree.newG, GreenTree.asChild, Option.getD]
      simp [ih]

/-- Claim C6 (amended): the build-unwrap-rebuild round trip is
structurally equal for every non-placeholder lexeme (`is_none = false`),
for `Option` of a tree-backed node, and for `Vec` of tree-backed nodes;
a placeholder lexeme (`is_none = true`) rebuilds into the same token and
value but with `is_none` reset to `false`. -/
theorem C6_roundtrip_amended (α : Type) [Terminal α] [Leaf α] [AnyRep α] :
    (∀ (x : Lexeme α) (h : Heap), x.isNone = false →
        ((Node.new ((Node.unwrap x h).1) ((Node.unwrap x h).2)).1 : Lexeme α) = x) ∧
    (∀ (x : Option TreeNode) (h : Heap),
        ((Node.new ((Node.unwrap x h).1) ((Node.unwrap x h).2)).1 : Option TreeNode) = x) ∧
    (∀ (xs : List TreeNode) (h : Heap),
        ((Node.new ((Node.unwrap xs h).1) ((Node.unwrap xs h).2)).1 : List TreeNode) = xs) ∧
    (∀ (x : Lexeme α) (h : Heap), x.isNone = true →
        ((Node.new ((Node.unwrap x h).1) ((Node.unwrap x h).2)).1 : Lexeme α)
          = { token := x.token, value := x.value, isNone := false }) := by
  refine ⟨?_, ?_, ?_, ?_⟩
  · intro x h hx
    obtain ⟨tok, v, b⟩ := x
    have hb : b = false := hx
    subst hb
    simp [instNodeLexeme, Lexeme.unwrapN, Lexeme.newN, Lexeme.downcastRef,
      DynAny.downcastRef, decVal_encVal]
  · intro x h
    cases x with
    | none => simp [instNodeOption, Option.unwrapN, Option.newN]
    | some v =>
        obtain ⟨t⟩ := v
        simp [instNodeOption, instNodeTreeNode, instLeafTreeNode, Option.unwrapN,
          Option.newN, GreenTree.newG]
  · intro xs h
    simp only [instNodeList, vecUnwrap, vecNew]
    exact vecGo_roundtrip xs h _
  · intro x h hx
    obtain ⟨tok, v, b⟩ := x
    have hb : b = true := hx
    subst hb
    simp [instNodeLexeme, Lexeme.unwrapN, Lexeme.newN, Lexeme.downcastRef,
      DynAny.downcastRef, decVal_encVal]

/-- Witness for C6 (amended) on a concrete lexeme and a concrete
one-element vector. -/
theorem C6_roundtrip_amended_witness :
    ({ token := fixToken, value := ⟨"x"⟩, isNone := false } : Lexeme Ident).isNone = false ∧
    ((Node.new
        ((Node.unwrap ({ token := fixToken, value := ⟨"x"⟩, isNone := false } : Lexeme Ident)
          ({} : Heap)).1)
        ((Node.unwrap ({ token := fixToken, value := ⟨"x"⟩, isNone := false } : Lexeme Ident)
          ({} : Heap)).2)).1 : Lexeme Ident)
      = { token := fixToken, value := ⟨"x"⟩, isNone := false } ∧
    ((Node.new ((Node.unwrap [(⟨fixTree⟩ : TreeNode)] ({} : Heap)).1)
        ((Node.unwrap [(⟨fixTree⟩ : TreeNode)] ({} : Heap)).2)).1 : List TreeNode)
      = [⟨fixTree⟩] :=
  ⟨rfl,
   (C6_roundtrip_amended Ident).1 { token := fixToken, value := ⟨"x"⟩, isNone := false } {} rfl,
   (C6_roundtrip_amended Ident).2.2.1 [⟨fixTree⟩] {}⟩

/-- Claim C7 (amended): for cursors with DISTINCT backing slots, `set`
copies the other cursor's current slot contents into this cursor's slot;
reading this cursor afterwards yields that copied content, and a later
`replace` or `set` performed on the other cursor does not change what
this cursor observes.  When the two cursors share one backing slot, `set`
panics (a `RefCell` borrow conflict) instead of copying. -/
theorem C7_set_copies (α : Type) [AnyRep α] :
    (∀ (c₁ c₂ : Cursor α) (h : Heap), c₁.slot ≠ c₂.slot →
        Cursor.setC c₁ c₂ h = some (h.writeSlot c₁.slot (h.readSlot c₂.slot))) ∧
    (∀ (c₁ c₂ : Cursor α) (h : Heap), c₁.slot ≠ c₂.slot →
        (lookupId h.slots c₁.slot).isSome →
        (h.writeSlot c₁.slot (h.readSlot c₂.slot)).readSlot c₁.slot = h.readSlot c₂.slot) ∧
    (∀ (c₁ c₂ : Cursor α) (h : Heap) (v : α), c₁.slot ≠ c₂.slot →
        (lookupId h.slots c₁.slot).isSome →
        (Cursor.replaceC c₂ v (h.writeSlot c₁.slot (h.readSlot c₂.slot))).readSlot c₁.slot
          = h.readSlot c₂.slot) ∧
    (∀ (c₁ c₂ c₃ : Cursor α) (h : Heap), c₁.slot ≠ c₂.slot → c₂.slot ≠ c₃.slot →
        (lookupId h.slots c₁.slot).isSome →
        (Cursor.setC c₂ c₃ (h.writeSlot c₁.slot (h.readSlot c₂.slot))).map
            (fun h₂ => h₂.readSlot c₁.slot)
          = some (h.readSlot c₂.slot)) ∧
    (∀ (c c' : Cursor α) (h : Heap), c.slot = c'.slot →
        Cursor.setC c c' h = Option.none) := by
  have hcopy : ∀ (c₁ c₂ : Cursor α) (h : Heap), c₁.slot ≠ c₂.slot →
      (lookupId h.slots c₁.slot).isSome →
      (h.writeSlot c₁.slot (h.readSlot c₂.slot)).readSlot c₁.slot = h.readSlot c₂.slot := by
    intro c₁ c₂ h hne hsm
    simp [Heap.writeSlot, Heap.readSlot, lookupId_setId_self _ _ _ hsm]
  refine ⟨?_, hcopy, ?_, ?_, ?_⟩
  · intro c₁ c₂ h hne
    simp [Cursor.setC, hne]
  · intro c₁ c₂ h v hne hsm
    rw [Cursor.replaceC, Heap.writeSlot, Heap.readSlot,
      lookupId_setId_ne _ _ _ _ (Ne.symm hne)]
    exact hcopy c₁ c₂ h hne hsm
  · intro c₁ c₂ c₃ h hne hne₂ hsm
    rw [Cursor.setC, if_neg hne₂, Option.map_some', Heap.writeSlot, Heap.readSlot,
      lookupId_setId_ne _ _ _ _ (Ne.symm hne)]
    exact congrArg some (hcopy c₁ c₂ h hne hsm)
  · intro c c' h heq
    simp [Cursor.setC, heq]

/-- Counterexample to C7 as stated: the claim quantifies over ALL cursor
pairs, but for two cursors sharing one backing slot (`c₂ = c₁.clone()`,
backed by the registered slot 0) `set` does not copy and return — it
panics on a `RefCell` borrow conflict. -/
theorem C7_set_counterexample :
    Cursor.setC (⟨0⟩ : Cursor TreeNode) (⟨0⟩ : Cursor TreeNode) fixHeapN
      = Option.none := by
  decide

/-- Witness for C7 (amended) on concrete distinct slots. -/
theorem C7_set_copies_witness :
    Cursor.setC (⟨2⟩ : Cursor TreeNode) (⟨0⟩ : Cursor TreeNode) fixHeap
      = some (fixHeap.writeSlot 2 (fixHeap.readSlot 0)) ∧
    (fixHeap.writeSlot 2 (fixHeap.readSlot 0)).readSlot 2 = fixHeap.readSlot 0 :=
  ⟨(C7_set_copies TreeNode).1 ⟨2⟩ ⟨0⟩ fixHeap (by decide),
   (C7_set_copies TreeNode).2.1 ⟨2⟩ ⟨0⟩ fixHeap (by decide) (by decide)⟩

end Asena
